import Mathlib

/-!
Shallow embedding of `folder_data_extract.py` (BracU e-recruitment PDF data
extraction).  Python floats are modelled as exact rationals (`ℚ`); the float
NaN sentinel (`np.nan`) is a distinguished constructor.  Exceptions raised by
the Python code are modelled with `Except PyError`.
-/

/-- A pandas cell value: a Python float, the float NaN, a Python int, or a
Python str. -/
inductive Cell where
  | fl (q : ℚ)
  | nanC
  | intC (n : ℤ)
  | strC (s : String)
deriving DecidableEq, Repr

/-- A pandas column dtype, as inferred for a column of `Cell`s. -/
inductive Dtype where
  | int64
  | float64
  | obj
deriving DecidableEq, Repr

/-- A raised Python exception, as far as the embedded code distinguishes
them. -/
inductive PyError where
  | keyError (key : String)
  | zeroDivisionError
  | typeError
deriving DecidableEq, Repr

/-- Outcome of `_standardize_gpa` on one value: a returned float, a returned
`np.nan`, or a raised `ZeroDivisionError`. -/
inductive GpaResult where
  | val (q : ℚ)
  | nan
  | zeroDiv
deriving DecidableEq, Repr

/-- ASCII decimal digit test (the inputs handled by the repo are ASCII, so
this models Python's `\d`). -/
def isDigitC (c : Char) : Bool :=
  '0' ≤ c && c ≤ '9'

/-- Python `\s` on ASCII text: space, tab, newline, carriage return, vertical
tab, form feed. -/
def isSpaceC (c : Char) : Bool :=
  c == ' ' || c == '\t' || c == '\n' || c == '\r' || c == '\x0b' || c == '\x0c'

/-- Numeric value of a list of decimal digit characters. -/
def natOfDigits (ds : List Char) : ℕ :=
  ds.foldl (fun acc c => 10 * acc + (c.toNat - 48)) 0

/-- Value of `<intpart>.<fracpart>` as a rational, as Python's `float()` reads
the captured group (decimal-exact in this model). -/
def ratOfDigits (ds fs : List Char) : ℚ :=
  (natOfDigits ds : ℚ) + (natOfDigits fs : ℚ) / (10 : ℚ) ^ fs.length

/-- Greedy match of the regex piece `(\d+\.?\d*)`: at least one digit, an
optional dot, optional further digits.  Returns the numeric value and the
rest of the input.  (Greediness is deterministic here: any character the
quantifiers could give back can never start the continuation of the
pattern.) -/
def matchNumber (s : List Char) : Option (ℚ × List Char) :=
  let p := s.span isDigitC
  if p.1.isEmpty then none
  else
    match p.2 with
    | '.' :: r2 =>
        let pf := r2.span isDigitC
        some (ratOfDigits p.1 pf.1, pf.2)
    | r => some (ratOfDigits p.1 [], r)

/-- Case-insensitive match of one pattern character `p` (given in lowercase)
against an input character, modelling `re.IGNORECASE` on ASCII letters. -/
def matchCIChar (p c : Char) : Bool :=
  c == p || c.toNat + 32 == p.toNat

/-- Case-insensitive literal match: pattern (lowercase) against the head of
the input; returns the remaining input. -/
def matchLitCI : List Char → List Char → Option (List Char)
  | [], s => some s
  | _ :: _, [] => none
  | p :: ps, c :: cs => if matchCIChar p c then matchLitCI ps cs else none

/-- Greedy `\s*`. -/
def skipSpaces (s : List Char) : List Char :=
  s.dropWhile isSpaceC

/-- Greedy `\n*`. -/
def skipNl (s : List Char) : List Char :=
  s.dropWhile (· == '\n')

/-- Second branch of the separator alternation: a literal `/`. -/
def matchSlash : List Char → Option (List Char)
  | [] => none
  | c :: r => if c = '/' then some r else none

/-- The separator alternation `(?:\n*\s*out\s+of\s*\n*|/)` of the GPA regex,
tried in the regex's branch order. -/
def matchSep (s : List Char) : Option (List Char) :=
  match matchLitCI ['o', 'u', 't'] (skipSpaces (skipNl s)) with
  | some r1 =>
      match r1 with
      | c :: r2 =>
          if isSpaceC c then
            match matchLitCI ['o', 'f'] (skipSpaces r2) with
            | some r3 => some (skipNl (skipSpaces r3))
            | none => matchSlash s
          else matchSlash s
      | [] => matchSlash s
  | none => matchSlash s

/-- Attempt the full GPA pattern
`(\d+\.?\d*)\s*(?:\n*\s*out\s+of\s*\n*|/)(\d+\.?\d*)` at the head of the
input; returns the two captured numbers. -/
def matchHere (s : List Char) : Option (ℚ × ℚ) :=
  match matchNumber s with
  | none => none
  | some (a, r1) =>
      match matchSep (skipSpaces r1) with
      | none => none
      | some r2 =>
          match matchNumber r2 with
          | none => none
          | some (b, _) => some (a, b)

/-- `re.search` of the GPA pattern: leftmost starting position wins. -/
def regexSearchGpa : List Char → Option (ℚ × ℚ)
  | [] => none
  | c :: r =>
      match matchHere (c :: r) with
      | some m => some m
      | none => regexSearchGpa r

/-- Decimal digit character for `n < 10`. -/
def digitChar (n : ℕ) : Char :=
  Char.ofNat (48 + n)

/-- Digit characters of a natural number (fuel-driven; `natStr` supplies
enough fuel). -/
def natDigitsAux : ℕ → ℕ → List Char
  | 0, _ => []
  | fuel + 1, n =>
      if n < 10 then [digitChar n]
      else natDigitsAux fuel (n / 10) ++ [digitChar (n % 10)]

/-- Decimal string of a natural number, as Python's `str` renders it. -/
def natStr (n : ℕ) : String :=
  String.mk (natDigitsAux (n + 1) n)

/-- Decimal string of an integer, as Python's `str` renders it. -/
def intStr (n : ℤ) : String :=
  if n < 0 then String.mk ('-' :: (natStr n.natAbs).toList) else natStr n.natAbs

/-- Fractional decimal digits of `num / den` (long division), `fuel` digits
long. -/
def fracDigitsND : ℕ → ℕ → ℕ → List Char
  | 0, _, _ => []
  | fuel + 1, num, den =>
      digitChar (10 * num / den) :: fracDigitsND fuel (10 * num % den) den

/-- Strip trailing zero digits, keeping at least one digit. -/
def stripZeros (ds : List Char) : List Char :=
  let r := (ds.reverse.dropWhile (· == '0')).reverse
  if r.isEmpty then ['0'] else r

/-- Python `str()` of a non-negative float value: decimal rendering with the
fractional part truncated at 17 digits and trailing zeros removed.  This is
the shallow-embedding stand-in for CPython's float `repr`; the two agree on
the short decimal values that occur in this development, and both only ever
produce digits, `.`, `-` and `e` — in particular never a GPA-pattern
separator.  (`natStr` of the integer part, a dot, then the fraction's
digits.) -/
def pyFloatCharsNN (q : ℚ) : List Char :=
  natDigitsAux (q.num.toNat / q.den + 1) (q.num.toNat / q.den) ++
    '.' :: stripZeros (fracDigitsND 17 (q.num.toNat % q.den) q.den)

/-- Python `str()` of a float value. -/
def pyFloatStr (q : ℚ) : String :=
  if q < 0 then String.mk ('-' :: pyFloatCharsNN (-q)) else String.mk (pyFloatCharsNN q)

/-- `astype(str)` on one cell: Python `str()` of the cell's value. -/
def cellStr : Cell → String
  | .fl q => pyFloatStr q
  | .nanC => "nan"
  | .intC n => intStr n
  | .strC s => s

/-- `_standardize_gpa` from `extract_gpa`: floats (including NaN) pass
through; anything else is stringified and searched for the score/scale
pattern; on a match the value is `gpa` if `scale == 4`, else
`(gpa / scale) * 4` — which raises `ZeroDivisionError` when `scale == 0`;
otherwise `np.nan`. -/
def standardize_gpa (value : Cell) : GpaResult :=
  match value with
  | .fl q => .val q
  | .nanC => .nan
  | v =>
      match regexSearchGpa (cellStr v).toList with
      | some (gpa, scale) =>
          if scale = 4 then .val gpa
          else if scale = 0 then .zeroDiv
          else .val (gpa / scale * 4)
      | none => .nan

/-- A DataFrame row: an association list from column label to cell. -/
def Row : Type := List (String × Cell)

instance : DecidableEq Row := inferInstanceAs (DecidableEq (List (String × Cell)))

/-- A DataFrame: the column labels plus the rows. -/
structure RawTable where
  cols : List String
  rows : List Row
deriving DecidableEq

/-- Read one cell of a row; a label missing from the row reads as NaN (the
value pandas aligns in for an absent column). -/
def rowGet (r : Row) (c : String) : Cell :=
  (r.lookup c).getD .nanC

/-- One column of a table, as the list of its cells. -/
def getColCells (t : RawTable) (c : String) : List Cell :=
  t.rows.map (fun r => rowGet r c)

/-- Is the cell a Python str? -/
def isStrCell : Cell → Bool
  | .strC _ => true
  | _ => false

/-- Is the cell a Python float (NaN included)? -/
def isFloatCell : Cell → Bool
  | .fl _ => true
  | .nanC => true
  | _ => false

/-- pandas dtype inference for a column of cells: any string makes the column
`object`; otherwise any float (ints upcast) makes it `float64`; an all-int
column is `int64`; an empty column is `object`. -/
def columnDtype (col : List Cell) : Dtype :=
  if col.isEmpty then .obj
  else if col.any isStrCell then .obj
  else if col.any isFloatCell then .float64
  else .int64

/-- Fail-fast effectful map over a list (the semantics of applying a
possibly-raising function elementwise, as `Series.apply` and a comprehension
do). -/
def exMapM {α β : Type} (f : α → Except PyError β) : List α → Except PyError (List β)
  | [] => .ok []
  | a :: l =>
      match f a with
      | .error e => .error e
      | .ok b =>
          match exMapM f l with
          | .error e => .error e
          | .ok l2 => .ok (b :: l2)

/-- `GpaResult` as the cell stored back into the column. -/
def applyStandardize (c : Cell) : Except PyError Cell :=
  match standardize_gpa (.strC (cellStr c)) with
  | .val q => .ok (.fl q)
  | .nan => .ok .nanC
  | .zeroDiv => .error .zeroDivisionError

/-- Overwrite the cell stored under label `c` in a row (column assignment of
the recomputed series). -/
def setCell (c : String) (v : Cell) (r : Row) : Row :=
  r.map (fun p => if p.1 = c then (p.1, v) else p)

/-- One row's step of the column rewrite: standardize the row's cell of the
column and store it back. -/
def gpaRowStep (c : String) (r : Row) : Except PyError Row :=
  match applyStandardize (rowGet r c) with
  | .error e => .error e
  | .ok nc => .ok (setCell c nc r)

/-- `extract_gpa(df, column_name)`: if the column is absent or already of
dtype `float64` the frame is returned unchanged; otherwise the column is
`astype(str)`-converted and `_standardize_gpa` is applied cell-wise (a
`ZeroDivisionError` raised on some cell propagates out). -/
def extract_gpa (t : RawTable) (column_name : String) : Except PyError RawTable :=
  if !(t.cols.contains column_name) || columnDtype (getColCells t column_name) == .float64 then
    .ok t
  else
    match exMapM (gpaRowStep column_name) t.rows with
    | .error e => .error e
    | .ok rows => .ok ⟨t.cols, rows⟩

/-- An aggregated value produced by `_agg_func`: a float (possibly NaN,
modelled as `none`) or a joined string. -/
inductive AggVal where
  | qv (q : Option ℚ)
  | sv (s : String)
deriving DecidableEq, Repr

/-- `series.mean()` with NaN skipped: `none` when no numeric value remains. -/
def meanCells (cells : List Cell) : Option ℚ :=
  let qs := cells.filterMap (fun c =>
    match c with
    | .fl q => some q
    | .intC n => some (n : ℚ)
    | _ => none)
  if qs.isEmpty then none else some (qs.sum / qs.length)

/-- `_agg_func` applied to one group's series, whose dtype is the parent
column's dtype: numeric dtypes are averaged; `object` dtype (for which pandas
reports a string dtype) is `', '.join(series.dropna())`, raising `TypeError`
if a surviving element is not a str. -/
def agg_func (dt : Dtype) (cells : List Cell) : Except PyError AggVal :=
  match dt with
  | .int64 => .ok (.qv (meanCells cells))
  | .float64 => .ok (.qv (meanCells cells))
  | .obj =>
      let nonNan := cells.filter (fun c => c ≠ .nanC)
      if nonNan.all isStrCell then
        .ok (.sv (String.intercalate ", " (nonNan.filterMap (fun c =>
          match c with
          | .strC s => some s
          | _ => none))))
      else .error .typeError

/-- The institution column label of the academic-record table (the PDF
extraction yields a carriage return inside the header). -/
def instCol : String := "Name of\rInstitution"

/-- Aggregated per-applicant academic data. -/
structure GradPostgrad where
  graduation_gpa : AggVal
  postgraduation_gpa : AggVal
  affiliations : List AggVal
deriving DecidableEq, Repr

/-- Rows of the filtered frame whose Level cell is the string `lvl`. -/
def levelGroup (rows : List Row) (lvl : String) : List Row :=
  rows.filter (fun r => rowGet r "Level" == .strC lvl)

/-- The groupby keys in pandas' sorted key order.  After the `isin` filter
the only possible keys are "Graduation" and "Postgraduation", and that is
also their lexicographic order. -/
def levelKeys (rows : List Row) : List String :=
  (if (levelGroup rows "Graduation").isEmpty then [] else ["Graduation"]) ++
    (if (levelGroup rows "Postgraduation").isEmpty then [] else ["Postgraduation"])

/-- `get_grad_postgrad_data(tables_dict)` applied to `table_1`:
normalize the Result column, keep rows whose Level is Graduation or
Postgraduation, group by Level, aggregate with `_agg_func`, and read the two
GPA entries (`np.nan` default, modelled `.qv none`) plus the list of
institution aggregates. -/
def get_grad_postgrad_data (t : RawTable) : Except PyError GradPostgrad :=
  match extract_gpa t "Result" with
  | .error e => .error e
  | .ok ex =>
      if !(ex.cols.contains "Level") then .error (.keyError "Level")
      else if !(ex.cols.contains instCol) then .error (.keyError instCol)
      else if !(ex.cols.contains "Result") then .error (.keyError "Result")
      else
        let rows := ex.rows.filter (fun r =>
          rowGet r "Level" == .strC "Graduation" || rowGet r "Level" == .strC "Postgraduation")
        -- group subseries keep the parent column's dtype
        let resDt := columnDtype (getColCells ex "Result")
        let instDt := columnDtype (getColCells ex instCol)
        let keys := levelKeys rows
        match exMapM (fun l => agg_func resDt ((levelGroup rows l).map (fun r => rowGet r "Result"))) keys with
        | .error e => .error e
        | .ok resAggs =>
            match exMapM (fun l => agg_func instDt ((levelGroup rows l).map (fun r => rowGet r instCol))) keys with
            | .error e => .error e
            | .ok instAggs =>
                .ok { graduation_gpa := ((keys.zip resAggs).lookup "Graduation").getD (.qv none)
                      postgraduation_gpa := ((keys.zip resAggs).lookup "Postgraduation").getD (.qv none)
                      affiliations := instAggs }

/-- Case-sensitive literal match. -/
def matchLit : List Char → List Char → Option (List Char)
  | [], s => some s
  | _ :: _, [] => none
  | p :: ps, c :: cs => if p == c then matchLit ps cs else none

/-- Attempt `Name\s*:\s*(.*)` at the head of the input: the capture runs to
the next newline (`.` excludes only `\n`); the `\s*` after the colon is
greedy and also consumes newlines. -/
def nameHere (s : List Char) : Option String :=
  match matchLit ['N', 'a', 'm', 'e'] s with
  | none => none
  | some r1 =>
      match skipSpaces r1 with
      | ':' :: r2 => some (String.mk ((skipSpaces r2).takeWhile (· ≠ '\n')))
      | _ => none

/-- `re.search(r"Name\s*:\s*(.*)", text)`, returning the capture. -/
def nameSearch : List Char → Option String
  | [] => none
  | c :: r =>
      match nameHere (c :: r) with
      | some m => some m
      | none => nameSearch r

/-- Attempt `<label>\s*:\s*(\d+)` at the head of the input (label literal,
case-sensitive), returning `int` of the captured digits. -/
def labelNumHere (label : List Char) (s : List Char) : Option ℕ :=
  match matchLit label s with
  | none => none
  | some r1 =>
      match skipSpaces r1 with
      | ':' :: r2 =>
          let ds := (skipSpaces r2).takeWhile isDigitC
          if ds.isEmpty then none else some (natOfDigits ds)
      | _ => none

/-- `re.search` for a `<label>\s*:\s*(\d+)` pattern. -/
def labelNumSearch (label : List Char) : List Char → Option ℕ
  | [] => none
  | c :: r =>
      match labelNumHere label (c :: r) with
      | some m => some m
      | none => labelNumSearch label r

/-- Attempt `erecruitment-submission-(\d+)\.pdf` at the head of the input,
returning the captured digit group as a string. -/
def submissionHere (s : List Char) : Option String :=
  match matchLit "erecruitment-submission-".toList s with
  | none => none
  | some r1 =>
      let ds := r1.takeWhile isDigitC
      if ds.isEmpty then none
      else
        match matchLit ".pdf".toList (r1.dropWhile isDigitC) with
        | some _ => some (String.mk ds)
        | none => none

/-- `re.search(r"erecruitment-submission-(\d+)\.pdf", file_path)`. -/
def submissionSearch : List Char → Option String
  | [] => none
  | c :: r =>
      match submissionHere (c :: r) with
      | some m => some m
      | none => submissionSearch r

/-- The flat record produced by `extract_applicant_info`.  The Python dict
keys "Name", "Publications_National", "Publications_International" and
"Submission #" are the four fields. -/
structure ApplicantInfo where
  name : Option String
  publications_national : ℕ
  publications_international : ℕ
  submission_number : Option String
deriving DecidableEq, Repr

/-- `extract_applicant_info`, given the concatenated page text and the file
path: four independent regex pulls, the publication counts defaulting to 0
on a failed search. -/
def extract_applicant_info (text file_path : String) : ApplicantInfo :=
  { name := nameSearch text.toList
    publications_national :=
      (labelNumSearch "No. of Publication National".toList text.toList).getD 0
    publications_international :=
      (labelNumSearch "No. of Publication International".toList text.toList).getD 0
    submission_number := submissionSearch file_path.toList }

/-- Column-label set equality (`set(df1.columns) == set(df2.columns)`). -/
def colSetEq (a b : List String) : Bool :=
  a.all (fun c => b.contains c) && b.all (fun c => a.contains c)

/-- `pd.concat([t1, t2])`: columns are `t1`'s followed by `t2`'s new ones;
rows are `t1`'s then `t2`'s (each row keeps its own label-keyed cells, which
is pandas' column alignment). -/
def concatTables (t1 t2 : RawTable) : RawTable :=
  ⟨t1.cols ++ t2.cols.filter (fun c => !(t1.cols.contains c)), t1.rows ++ t2.rows⟩

/-- The `table_dfs` dictionary: `table_{i+1} ↦ tables[i]`, keys modelled by
their index `i+1` (Python's string key `"table_k"` corresponds to `k`). -/
def buildTableDict : ℕ → List RawTable → List (ℕ × RawTable)
  | _, [] => []
  | k, t :: ts => (k, t) :: buildTableDict (k + 1) ts

/-- Update the value stored under a key (Python dict item assignment). -/
def dictSet (d : List (ℕ × RawTable)) (k : ℕ) (v : RawTable) : List (ℕ × RawTable) :=
  d.map (fun p => if p.1 = k then (p.1, v) else p)

/-- `extract_tables_from_pdf` after the external `tabula.read_pdf` call:
store every raw table under the next sequential key, then — accessing
`table_1` and `table_2`, which raises `KeyError` when fewer than two tables
were extracted — replace `table_1` by the concatenation of tables 1 and 2
when their column-label sets are equal. -/
def extract_tables_from_pdf (tables : List RawTable) : Except PyError (List (ℕ × RawTable)) :=
  let d := buildTableDict 1 tables
  match d.lookup 1 with
  | none => .error (.keyError "table_1")
  | some t1 =>
      match d.lookup 2 with
      | none => .error (.keyError "table_2")
      | some t2 =>
          if colSetEq t1.cols t2.cols then .ok (dictSet d 1 (concatTables t1 t2))
          else .ok d

/-- The consolidated per-applicant output row (`applicant_info |
grad_postgrad_data`; the two dicts have disjoint keys). -/
structure ApplicantRecord where
  name : Option String
  publications_national : ℕ
  publications_international : ℕ
  submission_number : Option String
  graduation_gpa : AggVal
  postgraduation_gpa : AggVal
  affiliations : List AggVal
deriving DecidableEq, Repr

/-- One input PDF file, with the results of the two external extraction
collaborators (either may raise). -/
structure PdfFile where
  name : String
  tables : Except PyError (List RawTable)
  text : Except PyError String

/-- The merged output dict `applicant_info | grad_postgrad_data` as a
record. -/
def combineRecord (info : ApplicantInfo) (gp : GradPostgrad) : ApplicantRecord :=
  { name := info.name
    publications_national := info.publications_national
    publications_international := info.publications_international
    submission_number := info.submission_number
    graduation_gpa := gp.graduation_gpa
    postgraduation_gpa := gp.postgraduation_gpa
    affiliations := gp.affiliations }

/-- The body of `main`'s `try` block for one file. -/
def processFile (f : PdfFile) : Except PyError ApplicantRecord :=
  match f.tables with
  | .error e => .error e
  | .ok ts =>
      match extract_tables_from_pdf ts with
      | .error e => .error e
      | .ok tablesDict =>
          match f.text with
          | .error e => .error e
          | .ok txt =>
              match
                match tablesDict.lookup 1 with
                | some t1 => get_grad_postgrad_data t1
                | none => .ok ⟨.qv none, .qv none, []⟩ with
              | .error e => .error e
              | .ok gp => .ok (combineRecord (extract_applicant_info txt f.name) gp)

/-- `main`'s folder loop: files whose name ends in ".pdf" are processed in
order; a file whose processing raises is logged (filename and error) and
skipped; the collected records and the log are returned.  (CSV serialization
of the records is the external output step.) -/
def mainRecords : List PdfFile → List ApplicantRecord × List (String × PyError)
  | [] => ([], [])
  | f :: fs =>
      let rest := mainRecords fs
      if f.name.endsWith ".pdf" then
        match processFile f with
        | .ok r => (r :: rest.1, rest.2)
        | .error e => (rest.1, (f.name, e) :: rest.2)
      else rest

/-! ### Spec-side definitions and concrete fixtures used by the claims -/

/-- Characters that can begin the separator of the GPA pattern under
`re.IGNORECASE`: `/` (47), `o` (111), `O` (79).  A string free of all three
can never match the pattern. -/
def sepFreeChar (c : Char) : Bool :=
  c.toNat ≠ 47 && c.toNat ≠ 111 && c.toNat ≠ 79

/-- The safety condition of the amended GPA-range invariant, per Result
cell: an already-numeric value must itself lie in [0, 4]; a textual value
that matches the score/scale pattern must have its achieved score bounded by
its scale. -/
def safeResultCell : Cell → Bool
  | .fl q => decide (0 ≤ q) && decide (q ≤ 4)
  | .intC n => decide (0 ≤ n) && decide ((n : ℚ) ≤ 4)
  | .nanC => true
  | .strC s =>
      match regexSearchGpa s.toList with
      | some (a, sc) => decide (a ≤ sc)
      | none => true

/-- The institution cell of an academic triple: the name string, or NaN when
missing. -/
def instCellOf (x : String × Option String × String) : Cell :=
  match x.2.1 with
  | some s => .strC s
  | none => .nanC

/-- An academic-record input row given as (Level, optional Institution,
Result text): the shape of the aggregator's clean input. -/
def acadRow (x : String × Option String × String) : Row :=
  [("Level", .strC x.1), (instCol, instCellOf x), ("Result", .strC x.2.2)]

/-- The academic-record table built from such triples. -/
def acadTable (ts : List (String × Option String × String)) : RawTable :=
  ⟨["Level", instCol, "Result"], ts.map acadRow⟩

/-- Spec-side: the triples of one Level group, in row order. -/
def specLevelRows (ts : List (String × Option String × String)) (lvl : String) :
    List (String × Option String × String) :=
  ts.filter (fun x => x.1 == lvl)

/-- Spec-side: the numeric values a Level group contributes to the mean —
the successfully normalized Result texts (missing/NaN excluded). -/
def specNumVals (ts : List (String × Option String × String)) (lvl : String) : List ℚ :=
  (specLevelRows ts lvl).filterMap (fun x =>
    match standardize_gpa (.strC x.2.2) with
    | .val q => some q
    | _ => none)

/-- Spec-side: the per-group Result aggregate — the arithmetic mean of the
group's numeric values, undefined when there are none. -/
def specLevelMean (ts : List (String × Option String × String)) (lvl : String) : Option ℚ :=
  let qs := specNumVals ts lvl
  if qs.isEmpty then none else some (qs.sum / qs.length)

/-- Spec-side: the group keys that exist, in the grouping's sorted order. -/
def specPresentLevels (ts : List (String × Option String × String)) : List String :=
  (if (specLevelRows ts "Graduation").isEmpty then [] else ["Graduation"]) ++
    (if (specLevelRows ts "Postgraduation").isEmpty then [] else ["Postgraduation"])

/-- Spec-side: the per-group Institution aggregate — comma-and-space-joined
non-missing names in row order. -/
def specJoinInsts (ts : List (String × Option String × String)) (lvl : String) : String :=
  String.intercalate ", " ((specLevelRows ts lvl).filterMap (fun x => x.2.1))

/-- The aggregator example table of the spec:
rows (Graduation, MIT, "3.5/4"), (Graduation, MIT2, "7/10"),
(Postgraduation, Stanford, "3.9"). -/
def exTable : RawTable :=
  acadTable [("Graduation", some "MIT", "3.5/4"),
             ("Graduation", some "MIT2", "7/10"),
             ("Postgraduation", some "Stanford", "3.9")]

/-- A Result column mixing a score/scale text with an already-numeric 3.7. -/
def mixTable : RawTable :=
  ⟨["Result"], [[("Result", .strC "3.5/4")], [("Result", .fl (37 / 10))]]⟩

/-- A Result column whose every value is an int (dtype `int64`). -/
def intTable : RawTable :=
  ⟨["Result"], [[("Result", .intC 3)], [("Result", .intC 4)]]⟩

/-- Two tables with the same column-label set (in different orders) and
distinct rows. -/
def tSetA : RawTable := ⟨["x", "y"], [[("x", .intC 1), ("y", .intC 2)]]⟩

/-- Continuation fragment of `tSetA`. -/
def tSetA2 : RawTable := ⟨["y", "x"], [[("x", .intC 3), ("y", .intC 4)]]⟩

/-- A table with a disjoint column-label set. -/
def tSetB : RawTable := ⟨["z"], [[("z", .intC 5)]]⟩

/-- Academic table whose single Result is "110/100" (score above scale). -/
def overTable : RawTable :=
  acadTable [("Graduation", some "X", "110/100")]

/-- Academic table whose single Result is "3/0" (zero scale). -/
def zeroTable : RawTable :=
  acadTable [("Graduation", some "X", "3/0")]

/-- A file that processes successfully. -/
def goodFile : PdfFile :=
  ⟨"a.pdf", .ok [exTable, tSetB], .ok "Name : Jane Doe\nNo. of Publication National : 3\n"⟩

/-- A second successful file. -/
def goodFile2 : PdfFile :=
  ⟨"c.pdf", .ok [exTable, tSetB], .ok "Name : Ann\n"⟩

/-- A file whose external table extraction raises. -/
def badFile : PdfFile := ⟨"b.pdf", .error .typeError, .ok ""⟩

/-- A file whose academic table holds the out-of-range "110/100" Result. -/
def overFile : PdfFile := ⟨"o.pdf", .ok [overTable, tSetB], .ok ""⟩

/-- A file whose academic table holds the zero-scale "3/0" Result. -/
def zeroFile : PdfFile := ⟨"z.pdf", .ok [zeroTable, tSetB], .ok ""⟩

/-- Spec-side: whitespace-trimming of a string at both ends (the claim's
"trimmed line remainder"). -/
def specTrim (s : String) : String :=
  String.mk (((s.toList.dropWhile isSpaceC).reverse.dropWhile isSpaceC).reverse)

/-- A cell that can only contribute values in [0, 4] to a group mean. -/
def boundedCell : Cell → Prop
  | .fl q => 0 ≤ q ∧ q ≤ 4
  | .intC n => 0 ≤ (n : ℚ) ∧ (n : ℚ) ≤ 4
  | .nanC => True
  | .strC _ => True

/-- The normalized Result cell of an academic triple: the standardized float
on a match, NaN otherwise. -/
def normCell (x : String × Option String × String) : Cell :=
  match standardize_gpa (.strC x.2.2) with
  | .val q => .fl q
  | _ => .nanC

/-- The academic row after the Result column rewrite. -/
def normAcadRow (x : String × Option String × String) : Row :=
  [("Level", .strC x.1), (instCol, instCellOf x), ("Result", normCell x)]

/-! ### Theorems -/

/-- C10: a cell text matching the score/scale pattern with a zero scale —
"3/0" — makes `_standardize_gpa` raise `ZeroDivisionError` rather than
return a float or NaN; the exception escapes `extract_gpa`, so the whole
file is skipped at the per-file boundary: a batch over that single file
yields zero records and a logged error. -/
theorem C10_zero_division :
    regexSearchGpa "3/0".toList = some (3, 0) ∧
    standardize_gpa (.strC "3/0") = .zeroDiv ∧
    extract_gpa zeroTable "Result" = .error .zeroDivisionError ∧
    get_grad_postgrad_data zeroTable = .error .zeroDivisionError ∧
    mainRecords [zeroFile] = ([], [("z.pdf", .zeroDivisionError)]) := by
  refine ⟨?_, ?_, ?_, ?_, ?_⟩ <;> with_unfolding_all rfl

/-- C6 (evaluation at the failing inputs): with zero extracted tables the
merger raises `KeyError` on `table_1`, and with a single extracted table it
raises `KeyError` on `table_2` — contradicting the claim that the merger
itself raises no error and yields an empty TableSet. -/
theorem C6_merger_raises :
    extract_tables_from_pdf [] = .error (.keyError "table_1") ∧
    extract_tables_from_pdf [tSetA] = .error (.keyError "table_2") := by
  exact ⟨rfl, rfl⟩

/-- C4 (evaluation at the failing input): in a Result column that also holds
text cells, the already-numeric value 3.7 is `astype(str)`-converted to
"3.7", fails the score/scale pattern and becomes NaN — it is not passed
through unchanged as the dead `isinstance(value, float)` branch intends. -/
theorem C4_numeric_passthrough_fails :
    extract_gpa mixTable "Result" =
      .ok ⟨["Result"], [[("Result", .fl (7 / 2))], [("Result", .nanC)]]⟩ ∧
    Cell.nanC ≠ .fl (37 / 10) := by
  refine ⟨by with_unfolding_all rfl, by with_unfolding_all decide⟩

/-- C1 (counterexample): for two raw tables with set-equal column labels and
distinct rows, the merged TableSet does append table 2's rows to table 1 —
but it still contains TWO entries, the incoming table remaining under key 2,
so the claim's "produces one logical table" is false. -/
theorem C1_counterexample :
    extract_tables_from_pdf [tSetA, tSetA2] =
      .ok [(1, ⟨["x", "y"], tSetA.rows ++ tSetA2.rows⟩), (2, tSetA2)] ∧
    [(1, (⟨["x", "y"], tSetA.rows ++ tSetA2.rows⟩ : RawTable)), (2, tSetA2)].length ≠ 1 := by
  exact ⟨rfl, by decide⟩

/-- C5 (counterexample): on the spec's three-row aggregator example the code
yields Postgraduation GPA = NaN, not 3.9 — the cell "3.9" is a string with
no score/scale separator, so normalization maps it to NaN and the group mean
of the lone NaN is NaN. -/
theorem C5_counterexample :
    get_grad_postgrad_data exTable =
      .ok ⟨.qv (some (63 / 20)), .qv none, [.sv "MIT, MIT2", .sv "Stanford"]⟩ ∧
    AggVal.qv none ≠ .qv (some (39 / 10)) := by
  refine ⟨by with_unfolding_all rfl, by with_unfolding_all decide⟩

/-- C7 (counterexample): a Result column whose every value is numeric but
int-typed (dtype `int64`, not `float64`) is NOT returned unchanged —
each int is stringified, fails the score/scale pattern and becomes NaN. -/
theorem C7_counterexample :
    extract_gpa intTable "Result" =
      .ok ⟨["Result"], [[("Result", .nanC)], [("Result", .nanC)]]⟩ ∧
    (⟨["Result"], [[("Result", .nanC)], [("Result", .nanC)]]⟩ : RawTable) ≠ intTable := by
  refine ⟨by with_unfolding_all rfl, by with_unfolding_all decide⟩

/-- C8 (counterexample): the Name extraction is not trimmed — on a line with
trailing whitespace before the newline, the captured remainder keeps that
whitespace, differing from the trimmed line remainder the claim states. -/
theorem C8_counterexample :
    (extract_applicant_info "Name : Jane Doe \nmore" "x.pdf").name = some "Jane Doe " ∧
    specTrim "Jane Doe " = "Jane Doe" ∧
    some "Jane Doe " ≠ some "Jane Doe" := by
  refine ⟨rfl, rfl, by decide⟩

/-- C8 (amended): the parser extracts the four fields independently; Name is
the line remainder after `Name :` with leading whitespace (newlines
included) skipped but trailing whitespace retained; the publication counts
parse their labelled integers and default to 0 when the label is absent;
Submission # is the digit group of the `erecruitment-submission-<digits>.pdf`
filename pattern, undefined when the pattern is absent.  Witnessed by the
spec's example and by the all-absent input. -/
theorem C8_parser_amended :
    extract_applicant_info "Name : Jane Doe\nNo. of Publication National : 3\n"
        "erecruitment-submission-482.pdf" =
      ⟨some "Jane Doe", 3, 0, some "482"⟩ ∧
    extract_applicant_info "no labels here" "other.pdf" = ⟨none, 0, 0, none⟩ ∧
    (extract_applicant_info "Name : Jane Doe \nmore" "erecruitment-submission-7.pdfx").name =
      some "Jane Doe " ∧
    (extract_applicant_info "Name : Jane Doe \nmore" "erecruitment-submission-7.pdfx").submission_number =
      some "7" := by
  exact ⟨rfl, rfl, rfl, rfl⟩

/-- C3 (counterexample): a batch over a file whose academic table holds the
Result "110/100" emits a record whose Graduation GPA is 4.4, outside
[0, 4]. -/
theorem C3_counterexample :
    (mainRecords [overFile]).1.map (fun r => r.graduation_gpa) = [.qv (some (22 / 5))] ∧
    ¬ ((22 : ℚ) / 5 ≤ 4) := by
  refine ⟨by with_unfolding_all rfl, by with_unfolding_all decide⟩

/-- C2 (counterexample): "3/0" matches the score/scale pattern with scale 0,
and there `normalize` raises `ZeroDivisionError` instead of returning the
claimed `(achieved / scale) * 4` float. -/
theorem C2_counterexample :
    regexSearchGpa "3/0".toList = some (3, 0) ∧
    standardize_gpa (.strC "3/0") = .zeroDiv ∧
    GpaResult.zeroDiv ≠ .val (3 / 0 * 4) := by
  refine ⟨by with_unfolding_all rfl, by with_unfolding_all rfl, by with_unfolding_all decide⟩

/-- Helper: `mainRecords` distributes over list append — records and log
entries of a batch are the concatenation of the two halves'. -/
theorem mainRecords_append (a b : List PdfFile) :
    mainRecords (a ++ b) =
      ((mainRecords a).1 ++ (mainRecords b).1, (mainRecords a).2 ++ (mainRecords b).2) := by
  induction a with
  | nil => simp [mainRecords]
  | cons f fs ih =>
      simp only [List.cons_append, mainRecords]
      by_cases h : f.name.endsWith ".pdf"
      · simp only [h, if_true]
        cases processFile f <;> simp [ih]
      · simp [h, ih]

/-- C2 (amended): for every cell text matching the score/scale pattern with
a nonzero scale, `normalize` returns the achieved score unchanged when the
scale is 4 and `(achieved / scale) * 4` otherwise (a zero scale instead
raises `ZeroDivisionError`); concretely `normalize("3.5 out of 4") = 3.5`,
`normalize("3.5/4") = 3.5`, `normalize("70/100") = 2.8`, and
`normalize("7\nout of\n10") = 2.8`. -/
theorem C2_normalize_amended :
    (∀ (s : String) (a sc : ℚ), regexSearchGpa s.toList = some (a, sc) → sc ≠ 0 →
      standardize_gpa (.strC s) = .val (if sc = 4 then a else a / sc * 4)) ∧
    standardize_gpa (.strC "3.5 out of 4") = .val (7 / 2) ∧
    standardize_gpa (.strC "3.5/4") = .val (7 / 2) ∧
    standardize_gpa (.strC "70/100") = .val (14 / 5) ∧
    standardize_gpa (.strC "7\nout of\n10") = .val (14 / 5) := by
  refine ⟨?_, ?_, ?_, ?_, ?_⟩
  · intro s a sc h hz
    simp only [standardize_gpa, cellStr, h]
    by_cases h4 : sc = 4 <;> simp [h4, hz]
  all_goals with_unfolding_all rfl

/-- Witness for C2 (amended), instantiated at "70/100". -/
theorem C2_normalize_amended_witness :
    standardize_gpa (.strC "70/100") = .val (if (100 : ℚ) = 4 then 70 else 70 / 100 * 4) :=
  C2_normalize_amended.1 "70/100" 70 100 (by with_unfolding_all rfl) (by norm_num)

/-- C9: an error raised while processing one PDF file is caught at the
per-file boundary — the filename and error are logged, the batch continues,
records for the other files are exactly preserved, and a batch whose single
PDF raises yields zero records while still completing with its log. -/
theorem C9_error_boundary (pre post : List PdfFile) (f : PdfFile) (e : PyError)
    (hpdf : f.name.endsWith ".pdf" = true) (herr : processFile f = .error e) :
    mainRecords (pre ++ f :: post) =
      ((mainRecords pre).1 ++ (mainRecords post).1,
       (mainRecords pre).2 ++ (f.name, e) :: (mainRecords post).2) ∧
    mainRecords [f] = ([], [(f.name, e)]) := by
  have h1 : mainRecords (f :: post) =
      ((mainRecords post).1, (f.name, e) :: (mainRecords post).2) := by
    simp [mainRecords, hpdf, herr]
  exact ⟨by rw [mainRecords_append, h1], by simp [mainRecords, hpdf, herr]⟩

/-- Witness for C9: a failing file between two successful ones. -/
theorem C9_error_boundary_witness :
    mainRecords ([goodFile] ++ badFile :: [goodFile2]) =
      ((mainRecords [goodFile]).1 ++ (mainRecords [goodFile2]).1,
       (mainRecords [goodFile]).2 ++ (badFile.name, .typeError) :: (mainRecords [goodFile2]).2) ∧
    mainRecords [badFile] = ([], [(badFile.name, .typeError)]) :=
  C9_error_boundary [goodFile] [goodFile2] badFile .typeError
    (by with_unfolding_all rfl) (by with_unfolding_all rfl)

/-- Helper: `exMapM` inversion — every output element is the successful
image of some input element. -/
theorem exMapM_ok_mem {α β : Type} (f : α → Except PyError β) :
    ∀ (l : List α) (l2 : List β), exMapM f l = .ok l2 →
      ∀ b ∈ l2, ∃ a ∈ l, f a = .ok b := by
  intro l
  induction l with
  | nil =>
      intro l2 h b hb
      simp only [exMapM] at h
      cases h
      simp at hb
  | cons a l ih =>
      intro l2 h b hb
      simp only [exMapM] at h
      cases hfa : f a with
      | error e => rw [hfa] at h; cases h
      | ok b0 =>
          rw [hfa] at h
          cases hrest : exMapM f l with
          | error e => rw [hrest] at h; cases h
          | ok l1 =>
              rw [hrest] at h
              cases h
              rcases List.mem_cons.mp hb with hb0 | hbl
              · exact ⟨a, List.mem_cons_self a l, hb0 ▸ hfa⟩
              · rcases ih l1 hrest b hbl with ⟨a1, ha1, hfa1⟩
                exact ⟨a1, List.mem_cons_of_mem a ha1, hfa1⟩

/-- Helper: the cell looked up after `setCell` is the new one when the label
was present. -/
theorem lookup_setCell (c : String) (v : Cell) :
    ∀ r : Row, List.lookup c (setCell c v r) = (List.lookup c r).map (fun _ => v) := by
  intro r
  induction r with
  | nil => rfl
  | cons p r ih =>
      simp only [setCell, List.map_cons] at ih ⊢
      by_cases h : p.1 = c
      · rw [if_pos h]
        have hbeq : (c == p.1) = true := beq_iff_eq.mpr h.symm
        cases p with
        | mk k w => simp_all [List.lookup]
      · rw [if_neg h]
        have hbeq : (c == p.1) = false := beq_eq_false_iff_ne.mpr (fun hc => h hc.symm)
        cases p with
        | mk k w =>
            simp only [List.lookup]
            simp only at hbeq
            rw [hbeq]
            exact ih

/-- Helper: reading the rewritten column of a rewritten row gives the new
cell, or NaN when the label was absent from the row (where the read before
rewriting was NaN too). -/
theorem rowGet_setCell (c : String) (v : Cell) (r : Row) :
    rowGet (setCell c v r) c = v ∨
      (rowGet (setCell c v r) c = .nanC ∧ rowGet r c = .nanC) := by
  unfold rowGet
  rw [show (setCell c v r).lookup c = List.lookup c (setCell c v r) from rfl,
    lookup_setCell]
  cases h : List.lookup c r with
  | none => simp [show r.lookup c = List.lookup c r from rfl, h]
  | some w => simp [show r.lookup c = List.lookup c r from rfl, h]

/-- Helper: a successful `applyStandardize` stores a float or NaN cell. -/
theorem applyStandardize_ok_float (c nc : Cell) (h : applyStandardize c = .ok nc) :
    isFloatCell nc = true := by
  unfold applyStandardize at h
  cases hg : standardize_gpa (.strC (cellStr c)) with
  | val q => rw [hg] at h; cases h; rfl
  | nan => rw [hg] at h; cases h; rfl
  | zeroDiv => rw [hg] at h; cases h

/-- Helper: a nonempty column of float/NaN cells has dtype `float64`. -/
theorem columnDtype_float64_of_all (col : List Cell) (hne : col ≠ [])
    (hall : ∀ c ∈ col, isFloatCell c = true) : columnDtype col = .float64 := by
  unfold columnDtype
  have hempty : col.isEmpty = false := by
    cases col with
    | nil => exact absurd rfl hne
    | cons a l => rfl
  rw [hempty]
  have hstr : col.any isStrCell = false := by
    rw [List.any_eq_false]
    intro c hc
    have := hall c hc
    cases c <;> simp_all [isFloatCell, isStrCell]
  rw [hstr]
  have hfl : col.any isFloatCell = true := by
    rw [List.any_eq_true]
    cases col with
    | nil => exact absurd rfl hne
    | cons a l => exact ⟨a, List.mem_cons_self a l, hall a (List.mem_cons_self a l)⟩
  rw [hfl]
  rfl

/-- Helper: a successful row step rewrites the column cell. -/
theorem gpaRowStep_ok (c : String) (r r' : Row) (h : gpaRowStep c r = .ok r') :
    ∃ nc, applyStandardize (rowGet r c) = .ok nc ∧ r' = setCell c nc r := by
  unfold gpaRowStep at h
  cases ha : applyStandardize (rowGet r c) with
  | error e => rw [ha] at h; cases h
  | ok nc => rw [ha] at h; cases h; exact ⟨nc, rfl, rfl⟩

/-- Helper: after a successful column rewrite, every row's cell of that
column is a float or NaN. -/
theorem extract_gpa_rows_float (c : String) (rows rows' : List Row)
    (h : exMapM (gpaRowStep c) rows = .ok rows') :
    ∀ r' ∈ rows', isFloatCell (rowGet r' c) = true := by
  intro r' hr'
  rcases exMapM_ok_mem (gpaRowStep c) rows rows' h r' hr' with ⟨r, _, hstep⟩
  rcases gpaRowStep_ok c r r' hstep with ⟨nc, hok, hset⟩
  have hfl := applyStandardize_ok_float _ _ hok
  rcases rowGet_setCell c nc r with hv | ⟨hv, _⟩
  · rw [hset, hv]; exact hfl
  · rw [hset, hv]; rfl

/-- C7 (amended): re-normalizing is idempotent — a column already of dtype
`float64` (in particular the output column of a previous `extract_gpa`) is
returned unchanged, and running `extract_gpa` on its own successful output
returns that output unchanged.  (An all-numeric but int-typed column,
however, is not passed through — see the counterexample.) -/
theorem C7_idempotent_amended :
    (∀ (t : RawTable) (c : String), columnDtype (getColCells t c) = .float64 →
      extract_gpa t c = .ok t) ∧
    (∀ (t t' : RawTable) (c : String), extract_gpa t c = .ok t' →
      extract_gpa t' c = .ok t') := by
  have hshort : ∀ (t : RawTable) (c : String), columnDtype (getColCells t c) = .float64 →
      extract_gpa t c = .ok t := by
    intro t c h
    unfold extract_gpa
    rw [h]
    simp
  refine ⟨hshort, ?_⟩
  intro t t' c h
  by_cases hg : (!(t.cols.contains c) || columnDtype (getColCells t c) == .float64) = true
  · unfold extract_gpa at h
    rw [if_pos hg] at h
    cases h
    unfold extract_gpa
    rw [if_pos hg]
  · have hgf : (!(t.cols.contains c) || columnDtype (getColCells t c) == .float64) = false :=
      Bool.not_eq_true _ ▸ eq_false_of_ne_true hg
    have hcont : t.cols.contains c = true := by
      rcases Bool.or_eq_false_iff.mp hgf with ⟨h1, _⟩
      simpa using h1
    unfold extract_gpa at h
    rw [if_neg (hgf ▸ Bool.false_ne_true)] at h
    cases hm : exMapM (gpaRowStep c) t.rows with
    | error e => rw [hm] at h; cases h
    | ok rows' =>
        rw [hm] at h
        cases h
        cases hrows : rows' with
        | nil =>
            unfold extract_gpa
            have : columnDtype (getColCells ⟨t.cols, []⟩ c) = .obj := rfl
            simp only [hcont, this]
            simp [exMapM]
        | cons r0 rs =>
            apply hshort
            apply columnDtype_float64_of_all
            · simp [getColCells, hrows]
            · intro cell hcell
              simp only [getColCells, List.mem_map] at hcell
              rcases hcell with ⟨r', hr', hcell⟩
              rw [← hcell]
              exact extract_gpa_rows_float c t.rows rows' hm r' (hrows ▸ hr')

/-- Witness for C7 (amended): re-running `extract_gpa` on the output of a
previous run leaves it unchanged. -/
theorem C7_idempotent_amended_witness :
    extract_gpa ⟨["Result"], [[("Result", .fl (7 / 2))]]⟩ "Result" =
      .ok ⟨["Result"], [[("Result", .fl (7 / 2))]]⟩ :=
  C7_idempotent_amended.2 ⟨["Result"], [[("Result", .strC "3.5/4")]]⟩ _ "Result"
    (by with_unfolding_all rfl)

/-- Helper: table-dictionary lookup — key `k + i` finds the `i`-th stored
table. -/
theorem buildTableDict_lookup (ts : List RawTable) :
    ∀ (k i : ℕ), List.lookup (k + i) (buildTableDict k ts) = ts[i]? := by
  induction ts with
  | nil => intro k i; rfl
  | cons t ts ih =>
      intro k i
      cases i with
      | zero => simp [buildTableDict, List.lookup]
      | succ j =>
          simp only [buildTableDict, List.lookup]
          have hne : (k + (j + 1) == k) = false := by
            simp only [beq_eq_false_iff_ne, ne_eq]
            omega
          rw [hne, show k + (j + 1) = (k + 1) + j by omega, ih (k + 1) j]
          simp

/-- Helper: the table dictionary has one entry per stored table. -/
theorem buildTableDict_length (ts : List RawTable) :
    ∀ k, (buildTableDict k ts).length = ts.length := by
  induction ts with
  | nil => intro k; rfl
  | cons t ts ih => intro k; simp [buildTableDict, ih]

/-- Helper: updating one key leaves lookups of other keys unchanged. -/
theorem lookup_dictSet_ne (k j : ℕ) (v : RawTable) (h : j ≠ k) :
    ∀ d : List (ℕ × RawTable), List.lookup j (dictSet d k v) = List.lookup j d := by
  intro d
  induction d with
  | nil => rfl
  | cons p d ih =>
      cases p with
      | mk a b =>
          simp only [dictSet, List.map_cons]
          by_cases hp : a = k
          · have hj : (j == a) = false := by
              simp only [beq_eq_false_iff_ne, ne_eq]
              omega
            rw [if_pos hp]
            simp only [List.lookup, hj]
            exact ih
          · rw [if_neg hp]
            simp only [List.lookup]
            cases hj : (j == a) with
            | true => rfl
            | false => exact ih

/-- Helper: updating a key smaller than every stored key changes nothing. -/
theorem dictSet_buildTableDict_lt (ts : List RawTable) :
    ∀ (k j : ℕ) (v : RawTable), j < k →
      dictSet (buildTableDict k ts) j v = buildTableDict k ts := by
  induction ts with
  | nil => intro k j v _; rfl
  | cons t ts ih =>
      intro k j v hlt
      simp only [buildTableDict, dictSet, List.map_cons]
      rw [if_neg (by omega : ¬ k = j)]
      have := ih (k + 1) j v (by omega)
      simp only [dictSet] at this
      rw [this]

/-- Helper: in the freshly built dictionary over `t1 :: t2 :: rest`, every
key `i ≥ 2` finds the `(i-1)`-th input table. -/
theorem lookup_buildTableDict_tail (t1 t2 : RawTable) (rest : List RawTable)
    (i : ℕ) (h2 : 2 ≤ i) :
    List.lookup i (buildTableDict 1 (t1 :: t2 :: rest)) = (t1 :: t2 :: rest)[i - 1]? := by
  simp only [buildTableDict, List.lookup]
  have h1 : (i == 1) = false := by
    simp only [beq_eq_false_iff_ne, ne_eq]
    omega
  rw [h1]
  by_cases hi : i = 2
  · subst hi
    simp
  · have h2f : (i == 2) = false := by
      simp only [beq_eq_false_iff_ne, ne_eq]
      omega
    rw [h2f]
    have h3 : i = 3 + (i - 3) := by omega
    rw [h3, buildTableDict_lookup rest 3 (i - 3)]
    have : 3 + (i - 3) - 1 = (i - 3) + 1 + 1 := by omega
    rw [this]
    simp

/-- Helper: evaluation of the merger on at least two tables. -/
theorem extract_tables_eval (t1 t2 : RawTable) (rest : List RawTable) :
    extract_tables_from_pdf (t1 :: t2 :: rest) =
      if colSetEq t1.cols t2.cols
      then .ok (dictSet (buildTableDict 1 (t1 :: t2 :: rest)) 1 (concatTables t1 t2))
      else .ok (buildTableDict 1 (t1 :: t2 :: rest)) := rfl

/-- C1 (amended): the merger stores every extracted table under the next
sequential identifier; then, only for the pair of tables 1 and 2, a
set-equal column comparison appends table 2's rows (in order) to table 1 —
while table 2 also remains in the TableSet, and later tables are never
merged.  With set-equal columns the result thus holds both the combined
table 1 and the original table 2; with distinct column sets it holds the
tables unchanged. -/
theorem C1_merge_amended (tables : List RawTable) (t1 t2 : RawTable)
    (rest : List RawTable) (hts : tables = t1 :: t2 :: rest) :
    ∃ d, extract_tables_from_pdf tables = .ok d ∧
      d.length = tables.length ∧
      List.lookup 1 d = some (if colSetEq t1.cols t2.cols then concatTables t1 t2 else t1) ∧
      (concatTables t1 t2).rows = t1.rows ++ t2.rows ∧
      ∀ i, 2 ≤ i → List.lookup i d = tables[i - 1]? := by
  subst hts
  have hd0 : buildTableDict 1 (t1 :: t2 :: rest) =
      (1, t1) :: (2, t2) :: buildTableDict 3 rest := rfl
  by_cases hc : colSetEq t1.cols t2.cols
  · refine ⟨dictSet (buildTableDict 1 (t1 :: t2 :: rest)) 1 (concatTables t1 t2), ?_, ?_, ?_, rfl, ?_⟩
    · rw [extract_tables_eval, if_pos hc]
    · simp [dictSet, buildTableDict_length]
    · rw [hd0]
      simp only [dictSet, List.map_cons, if_pos rfl]
      rw [if_pos hc]
      rfl
    · intro i hi
      rw [lookup_dictSet_ne 1 i _ (by omega)]
      exact lookup_buildTableDict_tail t1 t2 rest i hi
  · refine ⟨buildTableDict 1 (t1 :: t2 :: rest), ?_, ?_, ?_, rfl, ?_⟩
    · rw [extract_tables_eval, if_neg hc]
    · simp [buildTableDict_length]
    · rw [if_neg hc]
      rfl
    · intro i hi
      exact lookup_buildTableDict_tail t1 t2 rest i hi

/-- Witness for C1 (amended), at the two set-equal fixture tables. -/
theorem C1_merge_amended_witness :
    ∃ d, extract_tables_from_pdf [tSetA, tSetA2] = .ok d ∧
      d.length = [tSetA, tSetA2].length ∧
      List.lookup 1 d =
        some (if colSetEq tSetA.cols tSetA2.cols then concatTables tSetA tSetA2 else tSetA) ∧
      (concatTables tSetA tSetA2).rows = tSetA.rows ++ tSetA2.rows ∧
      ∀ i, 2 ≤ i → List.lookup i d = [tSetA, tSetA2][i - 1]? :=
  C1_merge_amended [tSetA, tSetA2] tSetA tSetA2 [] rfl

/-- Helper: decimal digit characters never begin a GPA-pattern separator. -/
theorem sepFree_digitChar : ∀ n, n < 10 → sepFreeChar (digitChar n) = true := by decide

/-- Helper: all characters of a rendered natural number are digits, hence
separator-free. -/
theorem natDigitsAux_sepFree : ∀ (fuel n : ℕ), ∀ c ∈ natDigitsAux fuel n, sepFreeChar c = true := by
  intro fuel
  induction fuel with
  | zero => intro n c hc; simp [natDigitsAux] at hc
  | succ fuel ih =>
      intro n c hc
      simp only [natDigitsAux] at hc
      by_cases h : n < 10
      · rw [if_pos h] at hc
        simp only [List.mem_singleton] at hc
        subst hc
        exact sepFree_digitChar n h
      · rw [if_neg h] at hc
        rcases List.mem_append.mp hc with h1 | h2
        · exact ih (n / 10) c h1
        · simp only [List.mem_singleton] at h2
          subst h2
          exact sepFree_digitChar (n % 10) (Nat.mod_lt n (by norm_num))

/-- Helper: long-division fraction digits are digits, hence separator-free. -/
theorem fracDigitsND_sepFree : ∀ (fuel num den : ℕ), 0 < den → num < den →
    ∀ c ∈ fracDigitsND fuel num den, sepFreeChar c = true := by
  intro fuel
  induction fuel with
  | zero => intro num den _ _ c hc; simp [fracDigitsND] at hc
  | succ fuel ih =>
      intro num den hden hlt c hc
      simp only [fracDigitsND] at hc
      rcases List.mem_cons.mp hc with h1 | h2
      · subst h1
        exact sepFree_digitChar _ (Nat.div_lt_of_lt_mul (by omega))
      · exact ih (10 * num % den) den hden (Nat.mod_lt _ hden) c h2

/-- Helper: stripping trailing zeros introduces at most the digit zero. -/
theorem stripZeros_subset (ds : List Char) : ∀ c ∈ stripZeros ds, c = '0' ∨ c ∈ ds := by
  intro c hc
  simp only [stripZeros] at hc
  split at hc
  · simp only [List.mem_singleton] at hc
    exact Or.inl hc
  · refine Or.inr ?_
    rw [List.mem_reverse] at hc
    have := (List.dropWhile_sublist (· == '0')).subset hc
    rwa [List.mem_reverse] at this

/-- Helper: the rendering of a float value is separator-free. -/
theorem pyFloatStr_sepFree (q : ℚ) : ∀ c ∈ (pyFloatStr q).toList, sepFreeChar c = true := by
  have hchars : ∀ p : ℚ, ∀ c ∈ pyFloatCharsNN p, sepFreeChar c = true := by
    intro p c hc
    simp only [pyFloatCharsNN] at hc
    rcases List.mem_append.mp hc with h1 | h2
    · exact natDigitsAux_sepFree _ _ c h1
    · rcases List.mem_cons.mp h2 with h3 | h4
      · subst h3; decide
      · rcases stripZeros_subset _ c h4 with h5 | h6
        · subst h5; decide
        · exact fracDigitsND_sepFree 17 _ _ p.pos (Nat.mod_lt _ p.pos) c h6
  unfold pyFloatStr
  by_cases h : q < 0
  · rw [if_pos h]
    intro c hc
    rcases List.mem_cons.mp hc with h1 | h2
    · subst h1; decide
    · exact hchars _ c h2
  · rw [if_neg h]
    intro c hc
    exact hchars _ c hc

/-- Helper: the rendering of an int value is separator-free. -/
theorem intStr_sepFree (n : ℤ) : ∀ c ∈ (intStr n).toList, sepFreeChar c = true := by
  unfold intStr
  by_cases h : n < 0
  · rw [if_pos h]
    intro c hc
    rcases List.mem_cons.mp hc with h1 | h2
    · subst h1; decide
    · exact natDigitsAux_sepFree _ _ c h2
  · rw [if_neg h]
    intro c hc
    exact natDigitsAux_sepFree _ _ c hc

/-- Helper: a separator-free character cannot case-insensitively match
`o`. -/
theorem matchCIChar_o_false (c : Char) (hc : sepFreeChar c = true) :
    matchCIChar 'o' c = false := by
  unfold sepFreeChar at hc
  simp only [Bool.and_eq_true, decide_eq_true_eq] at hc
  obtain ⟨⟨h47, h111⟩, h79⟩ := hc
  unfold matchCIChar
  apply Bool.or_eq_false_iff.mpr
  constructor
  · apply beq_eq_false_iff_ne.mpr
    intro h
    apply h111
    rw [h]
    rfl
  · apply beq_eq_false_iff_ne.mpr
    intro h
    apply h79
    have ho : Char.toNat 'o' = 111 := rfl
    omega

/-- Helper: the case-insensitive literal `out` cannot match separator-free
text. -/
theorem matchLitCI_out_none (s : List Char) (hs : ∀ c ∈ s, sepFreeChar c = true) :
    matchLitCI ['o', 'u', 't'] s = none := by
  cases s with
  | nil => rfl
  | cons c r =>
      have hc := hs c (List.mem_cons_self c r)
      simp only [matchLitCI, matchCIChar_o_false c hc]
      rfl

/-- Helper: the slash branch cannot match separator-free text. -/
theorem matchSlash_none (s : List Char) (hs : ∀ c ∈ s, sepFreeChar c = true) :
    matchSlash s = none := by
  cases s with
  | nil => rfl
  | cons c r =>
      have hc := hs c (List.mem_cons_self c r)
      unfold sepFreeChar at hc
      simp only [Bool.and_eq_true, decide_eq_true_eq] at hc
      obtain ⟨⟨h47, _⟩, _⟩ := hc
      simp only [matchSlash]
      rw [if_neg]
      intro h
      apply h47
      rw [h]
      rfl

/-- Helper: the separator alternation cannot match separator-free text. -/
theorem matchSep_none (s : List Char) (hs : ∀ c ∈ s, sepFreeChar c = true) :
    matchSep s = none := by
  have hsub : ∀ c ∈ skipSpaces (skipNl s), sepFreeChar c = true := by
    intro c hc
    exact hs c (((List.dropWhile_sublist _).trans (List.dropWhile_sublist _)).subset hc)
  unfold matchSep
  rw [matchLitCI_out_none _ hsub]
  exact matchSlash_none s hs

/-- Helper: the rest returned by a number match is a sublist of the input. -/
theorem matchNumber_sublist (s : List Char) (a : ℚ) (r : List Char)
    (h : matchNumber s = some (a, r)) : r.Sublist s := by
  simp only [matchNumber, List.span_eq_take_drop] at h
  split at h
  · cases h
  · split at h
    · rename_i r2 heq
      cases h
      have h1 : (List.dropWhile isDigitC r2).Sublist r2 := List.dropWhile_sublist _
      have h2 : r2.Sublist (List.dropWhile isDigitC s) := by
        rw [heq]
        exact List.sublist_cons_self _ _
      exact h1.trans (h2.trans (List.dropWhile_sublist _))
    · cases h
      exact List.dropWhile_sublist _

/-- Helper: the full GPA pattern cannot match at the head of separator-free
text. -/
theorem matchHere_none (s : List Char) (hs : ∀ c ∈ s, sepFreeChar c = true) :
    matchHere s = none := by
  unfold matchHere
  cases hm : matchNumber s with
  | none => rfl
  | some ar =>
      obtain ⟨a, r1⟩ := ar
      have hr1 := matchNumber_sublist s a r1 hm
      have hsk : ∀ c ∈ skipSpaces r1, sepFreeChar c = true :=
        fun c hc => hs c (hr1.subset ((List.dropWhile_sublist _).subset hc))
      dsimp only
      rw [matchSep_none _ hsk]

/-- Helper: the GPA pattern search fails on separator-free text. -/
theorem regexSearchGpa_none (l : List Char) (hl : ∀ c ∈ l, sepFreeChar c = true) :
    regexSearchGpa l = none := by
  induction l with
  | nil => rfl
  | cons c r ih =>
      unfold regexSearchGpa
      rw [matchHere_none _ hl]
      exact ih (fun d hd => hl d (List.mem_cons_of_mem _ hd))

/-- Helper: every non-string cell (float, NaN or int) is stringified by
`astype(str)` into separator-free text, so the rewrite stores NaN. -/
theorem applyStandardize_nonstr (c : Cell) (h : ∀ s, c ≠ .strC s) :
    applyStandardize c = .ok .nanC := by
  cases c with
  | strC s => exact absurd rfl (h s)
  | fl q =>
      unfold applyStandardize standardize_gpa
      simp only [cellStr]
      rw [regexSearchGpa_none _ (pyFloatStr_sepFree q)]
  | intC n =>
      unfold applyStandardize standardize_gpa
      simp only [cellStr]
      rw [regexSearchGpa_none _ (intStr_sepFree n)]
  | nanC =>
      unfold applyStandardize standardize_gpa
      simp only [cellStr]
      rw [show regexSearchGpa "nan".toList = none by with_unfolding_all rfl]

/-- Helper: captured numbers are non-negative (they are digit strings). -/
theorem ratOfDigits_nonneg (ds fs : List Char) : 0 ≤ ratOfDigits ds fs := by
  unfold ratOfDigits
  positivity

/-- Helper: a matched number is non-negative. -/
theorem matchNumber_nonneg (s : List Char) (a : ℚ) (r : List Char)
    (h : matchNumber s = some (a, r)) : 0 ≤ a := by
  simp only [matchNumber] at h
  split at h
  · cases h
  · split at h
    · cases h; exact ratOfDigits_nonneg _ _
    · cases h; exact ratOfDigits_nonneg _ _

/-- Helper: both captures of a head match are non-negative. -/
theorem matchHere_nonneg (s : List Char) (a b : ℚ) (h : matchHere s = some (a, b)) :
    0 ≤ a ∧ 0 ≤ b := by
  unfold matchHere at h
  cases hm : matchNumber s with
  | none => rw [hm] at h; cases h
  | some ar =>
      obtain ⟨a1, r1⟩ := ar
      rw [hm] at h
      dsimp only at h
      cases hsep : matchSep (skipSpaces r1) with
      | none => rw [hsep] at h; cases h
      | some r2 =>
          rw [hsep] at h
          dsimp only at h
          cases hm2 : matchNumber r2 with
          | none => rw [hm2] at h; cases h
          | some br =>
              obtain ⟨b1, r3⟩ := br
              rw [hm2] at h
              dsimp only at h
              cases h
              exact ⟨matchNumber_nonneg _ _ _ hm, matchNumber_nonneg _ _ _ hm2⟩

/-- Helper: both captures of a search are non-negative. -/
theorem regexSearchGpa_nonneg (l : List Char) (a b : ℚ)
    (h : regexSearchGpa l = some (a, b)) : 0 ≤ a ∧ 0 ≤ b := by
  induction l with
  | nil => cases h
  | cons c r ih =>
      unfold regexSearchGpa at h
      cases hm : matchHere (c :: r) with
      | some m =>
          rw [hm] at h
          dsimp only at h
          cases h
          exact matchHere_nonneg _ _ _ hm
      | none =>
          rw [hm] at h
          dsimp only at h
          exact ih h

/-- Helper: under the safety condition, a successful per-cell rewrite stores
a cell whose mean contribution lies in [0, 4]. -/
theorem applyStandardize_ok_bounded (c : Cell) (hsafe : safeResultCell c = true)
    (nc : Cell) (h : applyStandardize c = .ok nc) : boundedCell nc := by
  cases c with
  | fl q =>
      rw [applyStandardize_nonstr _ (fun s h' => Cell.noConfusion h')] at h
      cases h; trivial
  | nanC =>
      rw [applyStandardize_nonstr _ (fun s h' => Cell.noConfusion h')] at h
      cases h; trivial
  | intC n =>
      rw [applyStandardize_nonstr _ (fun s h' => Cell.noConfusion h')] at h
      cases h; trivial
  | strC s =>
      unfold applyStandardize standardize_gpa at h
      simp only [cellStr] at h
      unfold safeResultCell at hsafe
      dsimp only at hsafe
      cases hr : regexSearchGpa s.toList with
      | none =>
          rw [hr] at h hsafe
          dsimp only at h
          cases h
          trivial
      | some asc =>
          obtain ⟨a, sc⟩ := asc
          rw [hr] at h hsafe
          dsimp only at h hsafe
          have hnn := regexSearchGpa_nonneg _ _ _ hr
          simp only [decide_eq_true_eq] at hsafe
          by_cases h4 : sc = 4
          · rw [if_pos h4] at h
            cases h
            exact ⟨hnn.1, h4 ▸ hsafe⟩
          · rw [if_neg h4] at h
            by_cases h0 : sc = 0
            · rw [if_pos h0] at h; cases h
            · rw [if_neg h0] at h
              cases h
              have hscpos : 0 < sc := lt_of_le_of_ne hnn.2 (Ne.symm h0)
              have h1 : a / sc ≤ 1 := (div_le_one hscpos).mpr hsafe
              constructor
              · exact mul_nonneg (div_nonneg hnn.1 hnn.2) (by norm_num)
              · calc a / sc * 4 ≤ 1 * 4 := by nlinarith
                  _ = 4 := by norm_num

/-- Helper: the average of a nonempty list of values in [0, 4] lies in
[0, 4]. -/
theorem mean_bounded (qs : List ℚ) (hmem : ∀ x ∈ qs, 0 ≤ x ∧ x ≤ 4)
    (hne : qs.isEmpty = false) :
    0 ≤ qs.sum / qs.length ∧ qs.sum / qs.length ≤ 4 := by
  have hlen : 0 < qs.length := by
    rcases List.isEmpty_eq_false_iff_exists_mem.mp hne with ⟨x, hx⟩
    exact List.length_pos_of_mem hx
  have hlenq : (0 : ℚ) < qs.length := by exact_mod_cast hlen
  constructor
  · exact div_nonneg (List.sum_nonneg (fun x hx => (hmem x hx).1)) (le_of_lt hlenq)
  · rw [div_le_iff₀ hlenq]
    have := List.sum_le_card_nsmul qs 4 (fun x hx => (hmem x hx).2)
    rwa [nsmul_eq_mul, mul_comm] at this

/-- Helper: the mean of bounded cells (when defined) lies in [0, 4]. -/
theorem meanCells_bounded (cells : List Cell) (hb : ∀ c ∈ cells, boundedCell c)
    (q : ℚ) (h : meanCells cells = some q) : 0 ≤ q ∧ q ≤ 4 := by
  unfold meanCells at h
  dsimp only at h
  split at h
  · cases h
  · rename_i hne
    cases h
    apply mean_bounded
    · intro x hx
      rcases List.mem_filterMap.mp hx with ⟨c, hc, hcx⟩
      cases c with
      | fl p => cases hcx; exact hb _ hc
      | intC n => cases hcx; exact hb _ hc
      | nanC => cases hcx
      | strC s2 => cases hcx
    · exact eq_false_of_ne_true hne

/-- Helper: a safe cell is bounded as a mean contributor. -/
theorem boundedCell_of_safe (c : Cell) (h : safeResultCell c = true) : boundedCell c := by
  cases c with
  | fl q =>
      unfold safeResultCell at h
      simp only [Bool.and_eq_true, decide_eq_true_eq] at h
      exact h
  | intC n =>
      unfold safeResultCell at h
      simp only [Bool.and_eq_true, decide_eq_true_eq] at h
      exact ⟨by exact_mod_cast h.1, h.2⟩
  | nanC => trivial
  | strC s => trivial

/-- Helper: after a successful `extract_gpa` on a safe Result column, every
row's Result cell is bounded. -/
theorem extract_gpa_bounded (t ex : RawTable)
    (hsafe : ∀ r ∈ t.rows, safeResultCell (rowGet r "Result") = true)
    (h : extract_gpa t "Result" = .ok ex) :
    ∀ r' ∈ ex.rows, boundedCell (rowGet r' "Result") := by
  unfold extract_gpa at h
  split at h
  · cases h
    exact fun r' hr' => boundedCell_of_safe _ (hsafe r' hr')
  · split at h
    · cases h
    · rename_i rows hrows
      cases h
      intro r' hr'
      rcases exMapM_ok_mem _ _ _ hrows r' hr' with ⟨r, hr, hstep⟩
      rcases gpaRowStep_ok _ _ _ hstep with ⟨nc, hok, hset⟩
      have hb := applyStandardize_ok_bounded _ (hsafe r hr) _ hok
      rcases rowGet_setCell "Result" nc r with hv | ⟨hv, _⟩
      · rw [hset, hv]; exact hb
      · rw [hset, hv]; trivial

/-- Helper: a value found by key lookup in a zip is among the values. -/
theorem lookup_zip_mem {α β : Type} [BEq α] :
    ∀ (keys : List α) (vals : List β) (k : α) (v : β),
      List.lookup k (keys.zip vals) = some v → v ∈ vals := by
  intro keys
  induction keys with
  | nil => intro vals k v h; cases h
  | cons a ks ih =>
      intro vals k v h
      cases vals with
      | nil => cases h
      | cons b vs =>
          simp only [List.zip_cons_cons, List.lookup] at h
          cases hk : (k == a) with
          | true =>
              rw [hk] at h
              dsimp only at h
              cases h
              exact List.mem_cons_self _ _
          | false =>
              rw [hk] at h
              dsimp only at h
              exact List.mem_cons_of_mem _ (ih vs k v h)

/-- Helper: under the safety condition, both GPA aggregates of
`get_grad_postgrad_data`, when numeric, lie in [0, 4]. -/
theorem get_grad_bounded (t : RawTable) (gp : GradPostgrad)
    (hsafe : ∀ r ∈ t.rows, safeResultCell (rowGet r "Result") = true)
    (h : get_grad_postgrad_data t = .ok gp) :
    (∀ q, gp.graduation_gpa = .qv (some q) → 0 ≤ q ∧ q ≤ 4) ∧
    (∀ q, gp.postgraduation_gpa = .qv (some q) → 0 ≤ q ∧ q ≤ 4) := by
  unfold get_grad_postgrad_data at h
  cases hex : extract_gpa t "Result" with
  | error e => rw [hex] at h; cases h
  | ok ex =>
      rw [hex] at h
      dsimp only at h
      have hbnd := extract_gpa_bounded t ex hsafe hex
      split at h
      · cases h
      · split at h
        · cases h
        · split at h
          · cases h
          · split at h
            · cases h
            · rename_i resAggs hres
              split at h
              · cases h
              · rename_i instAggs hinst
                cases h
                have hval : ∀ v ∈ resAggs, ∀ q, v = AggVal.qv (some q) → 0 ≤ q ∧ q ≤ 4 := by
                  intro v hv q hvq
                  rcases exMapM_ok_mem _ _ _ hres v hv with ⟨l, hl, hagg⟩
                  have hcells : ∀ c ∈ (levelGroup
                      (ex.rows.filter (fun r =>
                        rowGet r "Level" == Cell.strC "Graduation" ||
                          rowGet r "Level" == Cell.strC "Postgraduation")) l).map
                        (fun r => rowGet r "Result"), boundedCell c := by
                    intro c hc
                    rcases List.mem_map.mp hc with ⟨r', hr', hrc⟩
                    rw [← hrc]
                    exact hbnd r' (List.mem_of_mem_filter (List.mem_of_mem_filter hr'))
                  cases hdt : columnDtype (getColCells ex "Result") with
                  | int64 =>
                      rw [hdt] at hagg
                      unfold agg_func at hagg
                      cases hagg
                      have hm : meanCells ((levelGroup
                          (ex.rows.filter (fun r =>
                            rowGet r "Level" == Cell.strC "Graduation" ||
                              rowGet r "Level" == Cell.strC "Postgraduation")) l).map
                            (fun r => rowGet r "Result")) = some q := by
                        injection hvq
                      exact meanCells_bounded _ hcells q hm
                  | float64 =>
                      rw [hdt] at hagg
                      unfold agg_func at hagg
                      cases hagg
                      have hm : meanCells ((levelGroup
                          (ex.rows.filter (fun r =>
                            rowGet r "Level" == Cell.strC "Graduation" ||
                              rowGet r "Level" == Cell.strC "Postgraduation")) l).map
                            (fun r => rowGet r "Result")) = some q := by
                        injection hvq
                      exact meanCells_bounded _ hcells q hm
                  | obj =>
                      rw [hdt] at hagg
                      unfold agg_func at hagg
                      dsimp only at hagg
                      split at hagg
                      · cases hagg
                        cases hvq
                      · cases hagg
                constructor
                · intro q hq
                  dsimp only at hq
                  cases hlook : List.lookup "Graduation" (List.zip _ resAggs) with
                  | none =>
                      rw [hlook] at hq
                      simp only [Option.getD_none] at hq
                      injection hq with h2
                      cases h2
                  | some v =>
                      rw [hlook] at hq
                      simp only [Option.getD_some] at hq
                      exact hval v (lookup_zip_mem _ _ _ _ hlook) q hq
                · intro q hq
                  dsimp only at hq
                  cases hlook : List.lookup "Postgraduation" (List.zip _ resAggs) with
                  | none =>
                      rw [hlook] at hq
                      simp only [Option.getD_none] at hq
                      injection hq with h2
                      cases h2
                  | some v =>
                      rw [hlook] at hq
                      simp only [Option.getD_some] at hq
                      exact hval v (lookup_zip_mem _ _ _ _ hlook) q hq

/-- Helper: every row of the merged `table_1` comes from one of the input
raw tables. -/
theorem merged_table1_rows (ts : List RawTable) (d : List (ℕ × RawTable)) (tb : RawTable)
    (hok : extract_tables_from_pdf ts = .ok d) (hlook : List.lookup 1 d = some tb) :
    ∀ r ∈ tb.rows, ∃ tin ∈ ts, r ∈ tin.rows := by
  cases ts with
  | nil => cases hok
  | cons t1 ts' =>
      cases ts' with
      | nil => cases hok
      | cons t2 rest =>
          rw [extract_tables_eval] at hok
          by_cases hc : colSetEq t1.cols t2.cols
          · rw [if_pos hc] at hok
            cases hok
            have hl : List.lookup 1 (dictSet (buildTableDict 1 (t1 :: t2 :: rest)) 1
                (concatTables t1 t2)) = some (concatTables t1 t2) := rfl
            rw [hl] at hlook
            cases hlook
            intro r hr
            rcases List.mem_append.mp hr with h1 | h2
            · exact ⟨t1, List.mem_cons_self _ _, h1⟩
            · exact ⟨t2, List.mem_cons_of_mem _ (List.mem_cons_self _ _), h2⟩
          · rw [if_neg hc] at hok
            cases hok
            have hl : List.lookup 1 (buildTableDict 1 (t1 :: t2 :: rest)) = some t1 := rfl
            rw [hl] at hlook
            cases hlook
            intro r hr
            exact ⟨tb, List.mem_cons_self _ _, hr⟩

/-- Helper: a successfully processed file yields a record whose GPA fields,
when numeric, are bounded — given that all its raw tables' Result cells are
safe. -/
theorem processFile_bounded (f : PdfFile) (rec : ApplicantRecord)
    (hsafe : ∀ ts, f.tables = .ok ts → ∀ tin ∈ ts, ∀ r ∈ tin.rows,
      safeResultCell (rowGet r "Result") = true)
    (h : processFile f = .ok rec) :
    (∀ q, rec.graduation_gpa = .qv (some q) → 0 ≤ q ∧ q ≤ 4) ∧
    (∀ q, rec.postgraduation_gpa = .qv (some q) → 0 ≤ q ∧ q ≤ 4) := by
  unfold processFile at h
  cases hts : f.tables with
  | error e => rw [hts] at h; cases h
  | ok ts =>
      rw [hts] at h
      dsimp only at h
      cases hd : extract_tables_from_pdf ts with
      | error e => rw [hd] at h; cases h
      | ok d =>
          rw [hd] at h
          dsimp only at h
          cases htxt : f.text with
          | error e => rw [htxt] at h; cases h
          | ok txt =>
              rw [htxt] at h
              dsimp only at h
              cases hlook : d.lookup 1 with
              | none =>
                  rw [hlook] at h
                  dsimp only at h
                  cases h
                  constructor <;> intro q hq <;> simp [combineRecord] at hq
              | some t1 =>
                  rw [hlook] at h
                  dsimp only at h
                  cases hg : get_grad_postgrad_data t1 with
                  | error e => rw [hg] at h; cases h
                  | ok gp =>
                      rw [hg] at h
                      dsimp only at h
                      cases h
                      have hsafe1 : ∀ r ∈ t1.rows, safeResultCell (rowGet r "Result") = true := by
                        intro r hr
                        rcases merged_table1_rows ts d t1 hd hlook r hr with ⟨tin, htin, hrin⟩
                        exact hsafe ts hts tin htin r hrin
                      have hb := get_grad_bounded t1 gp hsafe1 hg
                      constructor <;> intro q hq
                      · exact hb.1 q (by simpa [combineRecord] using hq)
                      · exact hb.2 q (by simpa [combineRecord] using hq)

/-- Helper: every emitted record is the successful processing of some input
file. -/
theorem mainRecords_mem (files : List PdfFile) (rec : ApplicantRecord)
    (h : rec ∈ (mainRecords files).1) : ∃ f ∈ files, processFile f = .ok rec := by
  induction files with
  | nil => simp [mainRecords] at h
  | cons f fs ih =>
      simp only [mainRecords] at h
      by_cases hp : f.name.endsWith ".pdf"
      · simp only [hp, if_true] at h
        cases hpr : processFile f with
        | ok r =>
            rw [hpr] at h
            dsimp only at h
            rcases List.mem_cons.mp h with h1 | h2
            · exact ⟨f, List.mem_cons_self _ _, h1 ▸ hpr⟩
            · rcases ih h2 with ⟨f1, hf1, hok1⟩
              exact ⟨f1, List.mem_cons_of_mem _ hf1, hok1⟩
        | error e =>
            rw [hpr] at h
            dsimp only at h
            rcases ih h with ⟨f1, hf1, hok1⟩
            exact ⟨f1, List.mem_cons_of_mem _ hf1, hok1⟩
      · simp only [hp, if_false, Bool.false_eq_true] at h
        rcases ih h with ⟨f1, hf1, hok1⟩
        exact ⟨f1, List.mem_cons_of_mem _ hf1, hok1⟩

/-- C3 (amended): every emitted ApplicantRecord's Graduation and
Postgraduation GPA fields, whenever numeric, lie within [0, 4] — provided
every already-numeric Result value itself lies in [0, 4] and every textual
Result score that matches the score/scale pattern has achieved ≤ scale.
(Without that proviso the invariant fails, e.g. on "110/100" — see the
counterexample.) -/
theorem C3_gpa_range_amended (files : List PdfFile)
    (hsafe : ∀ f ∈ files, ∀ ts, f.tables = .ok ts → ∀ tin ∈ ts, ∀ r ∈ tin.rows,
      safeResultCell (rowGet r "Result") = true) :
    ∀ rec ∈ (mainRecords files).1,
      (∀ q, rec.graduation_gpa = .qv (some q) → 0 ≤ q ∧ q ≤ 4) ∧
      (∀ q, rec.postgraduation_gpa = .qv (some q) → 0 ≤ q ∧ q ≤ 4) := by
  intro rec hrec
  rcases mainRecords_mem files rec hrec with ⟨f, hf, hok⟩
  exact processFile_bounded f rec (hsafe f hf) hok

/-- Witness for C3 (amended): the batch over `goodFile` (all scores within
scale) emits one record with Graduation GPA 3.15 ∈ [0, 4]. -/
theorem C3_gpa_range_amended_witness :
    (mainRecords [goodFile]).1.map (fun r => r.graduation_gpa) = [.qv (some (63 / 20))] ∧
    (0 ≤ (63 : ℚ) / 20 ∧ (63 : ℚ) / 20 ≤ 4) := by
  constructor
  · with_unfolding_all rfl
  · refine (C3_gpa_range_amended [goodFile] ?_
      ⟨some "Jane Doe", 3, 0, none, .qv (some (63 / 20)), .qv none,
        [.sv "MIT, MIT2", .sv "Stanford"]⟩ ?_).1 (63 / 20) rfl
    · intro f hf ts hts tin htin r hr
      have hf' : f = goodFile := by simpa using hf
      subst hf'
      have h2 : Except.ok [exTable, tSetB] = Except.ok ts := hts
      injection h2 with h3
      subst h3
      have hall : ∀ tin2 ∈ [exTable, tSetB], ∀ r2 ∈ tin2.rows,
          safeResultCell (rowGet r2 "Result") = true := by
        with_unfolding_all decide
      exact hall tin htin r hr
    · with_unfolding_all decide

/-- Helper: field reads of the academic rows. -/
theorem rowGet_acadRow_result (x : String × Option String × String) :
    rowGet (acadRow x) "Result" = .strC x.2.2 := rfl

/-- Helper: Level read of the normalized academic row. -/
theorem rowGet_normAcadRow_level (x : String × Option String × String) :
    rowGet (normAcadRow x) "Level" = .strC x.1 := rfl

/-- Helper: Result read of the normalized academic row. -/
theorem rowGet_normAcadRow_result (x : String × Option String × String) :
    rowGet (normAcadRow x) "Result" = normCell x := rfl

/-- Helper: Institution read of the normalized academic row. -/
theorem rowGet_normAcadRow_inst (x : String × Option String × String) :
    rowGet (normAcadRow x) instCol = instCellOf x := rfl

/-- Helper: equality test of string cells is string equality. -/
theorem strC_beq (a b : String) : (Cell.strC a == Cell.strC b) = (a == b) := by
  by_cases h : a = b
  · subst h; simp
  · have h1 : (Cell.strC a == Cell.strC b) = false := by
      apply beq_eq_false_iff_ne.mpr
      intro hc
      exact h (Cell.strC.inj hc)
    have h2 : (a == b) = false := beq_eq_false_iff_ne.mpr h
    rw [h1, h2]

/-- Helper: the normalized cell is always a float or NaN. -/
theorem isFloatCell_normCell (x : String × Option String × String) :
    isFloatCell (normCell x) = true := by
  unfold normCell
  cases standardize_gpa (.strC x.2.2) <;> rfl

/-- Helper: a clean academic table's Result column has dtype `object`. -/
theorem acad_result_dtype (ts : List (String × Option String × String)) :
    columnDtype (getColCells (acadTable ts) "Result") = .obj := by
  cases ts with
  | nil => rfl
  | cons x ts' =>
      show columnDtype (rowGet (acadRow x) "Result" :: _) = _
      rw [rowGet_acadRow_result]
      unfold columnDtype
      simp [isStrCell]

/-- Helper: one row step on a clean academic row (the zero-scale error
excluded) stores the normalized cell. -/
theorem gpaRowStep_acadRow (x : String × Option String × String)
    (hx : standardize_gpa (.strC x.2.2) ≠ .zeroDiv) :
    gpaRowStep "Result" (acadRow x) = .ok (normAcadRow x) := by
  unfold gpaRowStep
  rw [rowGet_acadRow_result]
  unfold applyStandardize
  have hcs : cellStr (.strC x.2.2) = x.2.2 := rfl
  rw [hcs]
  cases hv : standardize_gpa (.strC x.2.2) with
  | val q =>
      dsimp only
      have hsc : setCell "Result" (.fl q) (acadRow x) = normAcadRow x := by
        unfold setCell acadRow normAcadRow normCell
        rw [hv]
        rfl
      rw [hsc]
  | nan =>
      dsimp only
      have hsc : setCell "Result" Cell.nanC (acadRow x) = normAcadRow x := by
        unfold setCell acadRow normAcadRow normCell
        rw [hv]
        rfl
      rw [hsc]
  | zeroDiv => exact absurd hv hx

/-- Helper: the row rewrite of a clean academic table succeeds rowwise. -/
theorem exMapM_acadRows (ts : List (String × Option String × String))
    (hz : ∀ x ∈ ts, standardize_gpa (.strC x.2.2) ≠ .zeroDiv) :
    exMapM (gpaRowStep "Result") (ts.map acadRow) = .ok (ts.map normAcadRow) := by
  induction ts with
  | nil => rfl
  | cons x ts' ih =>
      simp only [List.map_cons, exMapM,
        gpaRowStep_acadRow x (hz x (List.mem_cons_self _ _)),
        ih (fun y hy => hz y (List.mem_cons_of_mem _ hy))]

/-- Helper: `extract_gpa` evaluated on a clean academic table. -/
theorem extract_gpa_acadTable (ts : List (String × Option String × String))
    (hz : ∀ x ∈ ts, standardize_gpa (.strC x.2.2) ≠ .zeroDiv) :
    extract_gpa (acadTable ts) "Result" =
      .ok ⟨["Level", instCol, "Result"], ts.map normAcadRow⟩ := by
  have hcond : (!((acadTable ts).cols.contains "Result") ||
      (columnDtype (getColCells (acadTable ts) "Result") == Dtype.float64)) = false := by
    rw [acad_result_dtype]
    rfl
  unfold extract_gpa
  rw [hcond]
  simp only [Bool.false_eq_true, if_false]
  show (match exMapM (gpaRowStep "Result") (ts.map acadRow) with
    | .error e => Except.error e
    | .ok rows => Except.ok (RawTable.mk (acadTable ts).cols rows)) = _
  rw [exMapM_acadRows ts hz]
  rfl

/-- Helper: the Level `isin` filter on normalized academic rows is the
Level filter on the triples. -/
theorem filter_normAcadRows (ts : List (String × Option String × String)) :
    (ts.map normAcadRow).filter (fun r =>
        rowGet r "Level" == Cell.strC "Graduation" ||
          rowGet r "Level" == Cell.strC "Postgraduation") =
      (ts.filter (fun x => x.1 == "Graduation" || x.1 == "Postgraduation")).map normAcadRow := by
  rw [List.filter_map]
  apply congrArg
  apply List.filter_congr
  intro x _
  simp only [Function.comp, rowGet_normAcadRow_level, strC_beq]

/-- Helper: grouping the filtered rows by one of the two levels is the
Level-equality filter on the triples. -/
theorem levelGroup_normAcadRows (ts : List (String × Option String × String)) (lvl : String)
    (hlvl : lvl = "Graduation" ∨ lvl = "Postgraduation") :
    levelGroup ((ts.filter (fun x => x.1 == "Graduation" || x.1 == "Postgraduation")).map
        normAcadRow) lvl =
      (ts.filter (fun x => x.1 == lvl)).map normAcadRow := by
  unfold levelGroup
  rw [List.filter_map]
  rw [List.filter_filter]
  apply congrArg
  apply List.filter_congr
  intro x _
  simp only [Function.comp, rowGet_normAcadRow_level, strC_beq]
  cases hlvl with
  | inl h =>
      subst h
      by_cases hg : x.1 = "Graduation"
      · simp [hg]
      · simp [beq_eq_false_iff_ne.mpr hg]
  | inr h =>
      subst h
      by_cases hp : x.1 = "Postgraduation"
      · simp [hp]
      · simp [beq_eq_false_iff_ne.mpr hp]

/-- Helper: reading the Result column of normalized rows gives the
normalized cells. -/
theorem groupResultCells (xs : List (String × Option String × String)) :
    (xs.map normAcadRow).map (fun r => rowGet r "Result") = xs.map normCell := by
  rw [List.map_map]
  rfl

/-- Helper: reading the Institution column of normalized rows gives the
institution cells. -/
theorem groupInstCells (xs : List (String × Option String × String)) :
    (xs.map normAcadRow).map (fun r => rowGet r instCol) = xs.map instCellOf := by
  rw [List.map_map]
  rfl

/-- Helper: the mean of one level group's normalized cells is the spec-side
per-level mean. -/
theorem meanCells_group (ts : List (String × Option String × String)) (lvl : String) :
    meanCells ((ts.filter (fun x => x.1 == lvl)).map normCell) = specLevelMean ts lvl := by
  have h : ((ts.filter (fun x => x.1 == lvl)).map normCell).filterMap (fun c =>
        match c with
        | Cell.fl q => some q
        | Cell.intC n => some ((n : ℚ))
        | _ => none) =
      (ts.filter (fun x => x.1 == lvl)).filterMap (fun x =>
        match standardize_gpa (.strC x.2.2) with
        | .val q => some q
        | _ => none) := by
    rw [List.filterMap_map]
    congr 1
    funext x
    simp only [Function.comp]
    unfold normCell
    cases standardize_gpa (.strC x.2.2) <;> rfl
  unfold meanCells specLevelMean specNumVals specLevelRows
  dsimp only
  rw [h]

/-- Helper: dropping NaN from the institution cells leaves exactly the
present names, as string cells. -/
theorem instCells_dropna (xs : List (String × Option String × String)) :
    (xs.map instCellOf).filter (fun c => decide (c ≠ Cell.nanC)) =
      (xs.filterMap (fun x => x.2.1)).map Cell.strC := by
  induction xs with
  | nil => rfl
  | cons x xs ih =>
      cases hx : x.2.1 with
      | some s =>
          have h2 : instCellOf x = .strC s := by unfold instCellOf; rw [hx]
          simp only [List.map_cons, List.filter_cons, h2, List.filterMap_cons, hx]
          rw [show decide (Cell.strC s ≠ Cell.nanC) = true from rfl]
          simpa using ih
      | none =>
          have h2 : instCellOf x = .nanC := by unfold instCellOf; rw [hx]
          simp only [List.map_cons, List.filter_cons, h2, List.filterMap_cons, hx]
          rw [show decide (Cell.nanC ≠ Cell.nanC) = false from rfl]
          simpa using ih

/-- Helper: the object-dtype aggregate of the institution cells is the
comma-and-space join of the present names in row order. -/
theorem instAgg_group (xs : List (String × Option String × String)) :
    agg_func .obj (xs.map instCellOf) =
      .ok (.sv (String.intercalate ", " (xs.filterMap (fun x => x.2.1)))) := by
  unfold agg_func
  dsimp only
  rw [instCells_dropna]
  have hall : ((xs.filterMap (fun x => x.2.1)).map Cell.strC).all isStrCell = true := by
    rw [List.all_eq_true]
    intro c hc
    rcases List.mem_map.mp hc with ⟨s, _, hs⟩
    rw [← hs]
    rfl
  rw [hall]
  simp only [if_true]
  congr 2
  rw [List.filterMap_map]
  have hcomp : ((fun c => match c with | Cell.strC s => some s | _ => none) ∘ Cell.strC) =
      (some : String → Option String) := by
    funext s
    rfl
  rw [hcomp, List.filterMap_some]

/-- Helper: mapping preserves emptiness. -/
theorem isEmpty_map {α β : Type} (f : α → β) (l : List α) :
    (l.map f).isEmpty = l.isEmpty := by
  cases l <;> rfl

/-- Helper: the groupby keys of the normalized filtered rows are the levels
present among the triples, in sorted order. -/
theorem levelKeys_normAcadRows (ts : List (String × Option String × String)) :
    levelKeys ((ts.filter (fun x => x.1 == "Graduation" || x.1 == "Postgraduation")).map
        normAcadRow) = specPresentLevels ts := by
  unfold levelKeys specPresentLevels
  rw [levelGroup_normAcadRows ts "Graduation" (Or.inl rfl),
    levelGroup_normAcadRows ts "Postgraduation" (Or.inr rfl),
    isEmpty_map, isEmpty_map]
  rfl

/-- Helper: the normalized Result column of a nonempty clean table has dtype
`float64`. -/
theorem norm_result_dtype (ts : List (String × Option String × String)) (hne : ts ≠ []) :
    columnDtype (getColCells ⟨["Level", instCol, "Result"], ts.map normAcadRow⟩ "Result") =
      .float64 := by
  show columnDtype ((ts.map normAcadRow).map (fun r => rowGet r "Result")) = _
  rw [groupResultCells]
  apply columnDtype_float64_of_all
  · intro h
    apply hne
    simpa using List.map_eq_nil_iff.mp h
  · intro c hc
    rcases List.mem_map.mp hc with ⟨x, _, hx⟩
    rw [← hx]
    exact isFloatCell_normCell x

/-- Helper: the institution column has dtype `object` when at least one name
is present. -/
theorem norm_inst_dtype (ts : List (String × Option String × String))
    (hinst : (ts.map (fun x => x.2.1)).any Option.isSome = true) :
    columnDtype (getColCells ⟨["Level", instCol, "Result"], ts.map normAcadRow⟩ instCol) =
      .obj := by
  show columnDtype ((ts.map normAcadRow).map (fun r => rowGet r instCol)) = _
  rw [groupInstCells]
  have hany : (ts.map instCellOf).any isStrCell = true := by
    rw [List.any_eq_true]
    rw [List.any_eq_true] at hinst
    rcases hinst with ⟨o, ho, hso⟩
    rcases List.mem_map.mp ho with ⟨x, hx, hxo⟩
    refine ⟨instCellOf x, List.mem_map_of_mem _ hx, ?_⟩
    unfold instCellOf
    cases hx21 : x.2.1 with
    | some s => rfl
    | none =>
        rw [← hxo, hx21] at hso
        cases hso
  have hne : (ts.map instCellOf).isEmpty = false := by
    rcases List.any_eq_true.mp hany with ⟨c, hc, _⟩
    cases hl : ts.map instCellOf with
    | nil => rw [hl] at hc; cases hc
    | cons => rfl
  unfold columnDtype
  simp only [hne, hany, Bool.false_eq_true, if_false, if_true]

/-- Helper: `exMapM` of a pointwise-successful function is the map of its
values. -/
theorem exMapM_all_ok {α β : Type} (f : α → Except PyError β) (g : α → β) :
    ∀ l : List α, (∀ a ∈ l, f a = .ok (g a)) → exMapM f l = .ok (l.map g) := by
  intro l
  induction l with
  | nil => intro _; rfl
  | cons a l ih =>
      intro h
      simp only [exMapM, h a (List.mem_cons_self _ _),
        ih (fun b hb => h b (List.mem_cons_of_mem _ hb)), List.map_cons]

/-- Helper: a present level is Graduation or Postgraduation. -/
theorem mem_specPresentLevels (ts : List (String × Option String × String)) (l : String)
    (h : l ∈ specPresentLevels ts) : l = "Graduation" ∨ l = "Postgraduation" := by
  unfold specPresentLevels at h
  rcases List.mem_append.mp h with h1 | h1
  · split at h1
    · cases h1
    · simp only [List.mem_singleton] at h1
      exact Or.inl h1
  · split at h1
    · cases h1
    · simp only [List.mem_singleton] at h1
      exact Or.inr h1

/-- Helper: a level with no rows has an undefined mean. -/
theorem specLevelMean_empty (ts : List (String × Option String × String)) (lvl : String)
    (h : (specLevelRows ts lvl).isEmpty = true) : specLevelMean ts lvl = none := by
  unfold specLevelMean specNumVals
  rw [List.isEmpty_iff.mp h]
  rfl

/-- Helper: reading one level's aggregate off the keyed aggregate list. -/
theorem lookup_presentLevels (ts : List (String × Option String × String)) (lvl : String)
    (hlvl : lvl = "Graduation" ∨ lvl = "Postgraduation") :
    (((specPresentLevels ts).zip ((specPresentLevels ts).map
        (fun l => AggVal.qv (specLevelMean ts l)))).lookup lvl).getD (.qv none) =
      .qv (specLevelMean ts lvl) := by
  unfold specPresentLevels
  by_cases hg : (specLevelRows ts "Graduation").isEmpty
  · by_cases hp : (specLevelRows ts "Postgraduation").isEmpty
    · simp only [hg, hp, if_true]
      rcases hlvl with h | h <;> subst h <;>
        simp [specLevelMean_empty _ _ hg, specLevelMean_empty _ _ hp]
    · simp only [hg, if_true, hp, if_false]
      rcases hlvl with h | h <;> subst h
      · simp [List.lookup, specLevelMean_empty _ _ hg]
      · simp [List.lookup]
  · by_cases hp : (specLevelRows ts "Postgraduation").isEmpty
    · simp only [hg, if_false, hp, if_true]
      rcases hlvl with h | h <;> subst h
      · simp [List.lookup]
      · simp [List.lookup, specLevelMean_empty _ _ hp]
    · simp only [hg, hp, if_false]
      rcases hlvl with h | h <;> subst h
      · simp [List.lookup]
      · simp [List.lookup]

/-- C5 (amended): on a clean academic table the aggregator keeps only rows
whose Level is exactly "Graduation" or "Postgraduation", groups them by
Level, aggregates Result as the arithmetic mean of the successfully
normalized numeric values (missing/NaN excluded, an all-missing group being
undefined) and Institution Name as the comma-and-space-joined non-missing
names in row order.  On the spec's example rows the result is
Graduation GPA = 3.15 and Affiliations = ["MIT, MIT2", "Stanford"], but
Postgraduation GPA is undefined (NaN), not 3.9: the cell "3.9" is a string
with no score/scale separator, so normalization maps it to NaN. -/
theorem C5_aggregator_amended :
    (∀ ts : List (String × Option String × String),
      (∀ x ∈ ts, standardize_gpa (.strC x.2.2) ≠ .zeroDiv) →
      (ts.map (fun x => x.2.1)).any Option.isSome = true →
      get_grad_postgrad_data (acadTable ts) =
        .ok { graduation_gpa := .qv (specLevelMean ts "Graduation")
              postgraduation_gpa := .qv (specLevelMean ts "Postgraduation")
              affiliations := (specPresentLevels ts).map (fun l => .sv (specJoinInsts ts l)) }) ∧
    get_grad_postgrad_data exTable =
      .ok ⟨.qv (some (63 / 20)), .qv none, [.sv "MIT, MIT2", .sv "Stanford"]⟩ := by
  constructor
  · intro ts hz hinst
    have hne : ts ≠ [] := by
      intro h
      rw [h] at hinst
      cases hinst
    unfold get_grad_postgrad_data
    rw [extract_gpa_acadTable ts hz]
    dsimp only
    rw [show ((["Level", instCol, "Result"] : List String).contains "Level") = true from rfl,
      show ((["Level", instCol, "Result"] : List String).contains instCol) = true from rfl,
      show ((["Level", instCol, "Result"] : List String).contains "Result") = true from rfl]
    simp only [Bool.not_true, Bool.false_eq_true, if_false]
    simp only [filter_normAcadRows, levelKeys_normAcadRows,
      norm_result_dtype ts hne, norm_inst_dtype ts hinst]
    have hres : exMapM (fun l => agg_func .float64
        ((levelGroup ((ts.filter (fun x =>
          x.1 == "Graduation" || x.1 == "Postgraduation")).map normAcadRow) l).map
            (fun r => rowGet r "Result"))) (specPresentLevels ts) =
        .ok ((specPresentLevels ts).map (fun l => AggVal.qv (specLevelMean ts l))) := by
      apply exMapM_all_ok
      intro l hl
      rw [levelGroup_normAcadRows ts l (mem_specPresentLevels ts l hl), groupResultCells]
      show Except.ok (AggVal.qv (meanCells ((ts.filter (fun x => x.1 == l)).map normCell))) = _
      rw [meanCells_group]
    rw [hres]
    dsimp only
    have hinstA : exMapM (fun l => agg_func .obj
        ((levelGroup ((ts.filter (fun x =>
          x.1 == "Graduation" || x.1 == "Postgraduation")).map normAcadRow) l).map
            (fun r => rowGet r instCol))) (specPresentLevels ts) =
        .ok ((specPresentLevels ts).map (fun l => AggVal.sv (specJoinInsts ts l))) := by
      apply exMapM_all_ok
      intro l hl
      rw [levelGroup_normAcadRows ts l (mem_specPresentLevels ts l hl), groupInstCells,
        instAgg_group]
      rfl
    rw [hinstA]
    dsimp only
    refine congrArg Except.ok ?_
    rw [lookup_presentLevels ts "Graduation" (Or.inl rfl),
      lookup_presentLevels ts "Postgraduation" (Or.inr rfl)]
  · with_unfolding_all rfl

/-- Witness for C5 (amended), at the spec's example rows. -/
theorem C5_aggregator_amended_witness :
    get_grad_postgrad_data (acadTable [("Graduation", some "MIT", "3.5/4"),
        ("Graduation", some "MIT2", "7/10"), ("Postgraduation", some "Stanford", "3.9")]) =
      .ok { graduation_gpa := .qv (specLevelMean [("Graduation", some "MIT", "3.5/4"),
              ("Graduation", some "MIT2", "7/10"),
              ("Postgraduation", some "Stanford", "3.9")] "Graduation")
            postgraduation_gpa := .qv (specLevelMean [("Graduation", some "MIT", "3.5/4"),
              ("Graduation", some "MIT2", "7/10"),
              ("Postgraduation", some "Stanford", "3.9")] "Postgraduation")
            affiliations := (specPresentLevels [("Graduation", some "MIT", "3.5/4"),
              ("Graduation", some "MIT2", "7/10"),
              ("Postgraduation", some "Stanford", "3.9")]).map
                (fun l => .sv (specJoinInsts [("Graduation", some "MIT", "3.5/4"),
                  ("Graduation", some "MIT2", "7/10"),
                  ("Postgraduation", some "Stanford", "3.9")] l)) } :=
  C5_aggregator_amended.1
    [("Graduation", some "MIT", "3.5/4"), ("Graduation", some "MIT2", "7/10"),
      ("Postgraduation", some "Stanford", "3.9")]
    (by with_unfolding_all decide) (by with_unfolding_all rfl)
